import Mathlib

/-!
Verification development for the pet-adoption chatbot pipeline
(`src/chatbot_pipeline.py`).  The dialogue core is embedded shallowly:
the session is a structure, the external collaborators (intent
classifier, NER entity extractor, fuzzy matcher) are oracle functions
supplied as parameters, and Python dicts are association lists with
unique keys.  Machine floats (classifier confidence, fuzzy score) are
modelled as rationals.
-/

/-- Python `str.lower()` (ASCII case folding, as all relevant strings are ASCII). -/
def pyLower (s : String) : String := String.mk (s.data.map Char.toLower)

/-- Characters counted as whitespace by Python `str.split()` / `str.strip()`. -/
def pyWS (c : Char) : Bool := c.isWhitespace

/-- Drop whitespace from both ends of a character list. -/
def stripChars (l : List Char) : List Char :=
  ((l.dropWhile pyWS).reverse.dropWhile pyWS).reverse

/-- Python `str.strip()`: drop whitespace from both ends. -/
def pyStrip (s : String) : String := String.mk (stripChars s.data)

/-- Helper for `pySplit`: split a character list on whitespace runs, dropping
empty pieces.  `cur` is the current token, reversed. -/
def pySplitAux : List Char → List Char → List String
  | [], cur => if cur.isEmpty then [] else [String.mk cur.reverse]
  | c :: cs, cur =>
    if pyWS c then
      if cur.isEmpty then pySplitAux cs []
      else String.mk cur.reverse :: pySplitAux cs []
    else pySplitAux cs (c :: cur)

/-- Python `str.split()` with no argument: split on whitespace runs. -/
def pySplit (s : String) : List String := pySplitAux s.data []

/-- Python `sep.join(xs)`. -/
def pyJoin (sep : String) : List String → String
  | [] => ""
  | [x] => x
  | x :: y :: xs => x ++ sep ++ pyJoin sep (y :: xs)

/-- Whether `pat` occurs as a prefix of `l` (character lists). -/
def leadsWith : List Char → List Char → Bool
  | [], _ => true
  | _ :: _, [] => false
  | a :: as, b :: bs => a = b && leadsWith as bs

/-- Whether `pat` occurs as a contiguous segment of `l`: Python `pat in s`. -/
def hasSegment (pat : List Char) : List Char → Bool
  | [] => pat.isEmpty
  | l@(_ :: rest) => leadsWith pat l || hasSegment pat rest

/-- Python `pat in s` on strings (substring containment). -/
def strContains (s pat : String) : Bool := hasSegment pat.data s.data

/-- Propositional form of segment containment. -/
def SegIn (pat l : List Char) : Prop := ∃ a b, l = a ++ pat ++ b

/-- The vowels of the nonsense-token guard. -/
def vowels : List Char := ['a', 'e', 'i', 'o', 'u']

/-- `any(ch in "aeiou" for ch in s)` for an already-prepared string. -/
def hasVowelRaw (s : String) : Bool := s.data.any (fun c => vowels.contains c)

/-- `any(ch in "aeiou" for ch in s.lower())`. -/
def hasVowel (s : String) : Bool := hasVowelRaw (pyLower s)

/-- Python `k.replace("_", " ")` (the pattern is a single character). -/
def underscoreToSpace (s : String) : String :=
  String.mk (s.data.map (fun c => if c = '_' then ' ' else c))

/-- Whether a character counts for `\w` in the regex `\b[a-zA-Z]+\b`. -/
def isWordChar (c : Char) : Bool := c.isAlpha || c.isDigit || c = '_'

/-- Helper for `wordTokens`: one pass over the characters.  `okStart` records
whether the pending letter run began at a word boundary; `pending` is the
reversed current run of letters. -/
def wordTokensAux : List Char → Bool → List Char → List String
  | [], okStart, pending =>
    if pending.isEmpty then [] else if okStart then [String.mk pending.reverse] else []
  | c :: cs, okStart, pending =>
    if c.isAlpha then wordTokensAux cs okStart (c :: pending)
    else
      let rest := wordTokensAux cs (!isWordChar c) []
      if !pending.isEmpty && okStart && !isWordChar c then
        String.mk pending.reverse :: rest
      else rest

/-- `re.findall(r"\b[a-zA-Z]+\b", text.lower())`. -/
def wordTokens (text : String) : List String := wordTokensAux (pyLower text).data true []

/-- Python dicts `SlotName -> value` are association lists with unique keys. -/
abbrev EntMap := List (String × String)

/-- `d.get(k)` / `d[k]`: the value at the first matching key. -/
def lookupE : EntMap → String → Option String
  | [], _ => none
  | (k, v) :: rest, key => if k = key then some v else lookupE rest key

/-- `d[k] = v`: replace in place if the key exists, else append (dict update
keeps the key's position). -/
def insertE : EntMap → String → String → EntMap
  | [], k, v => [(k, v)]
  | (k', v') :: rest, k, v =>
    if k' = k then (k, v) :: rest else (k', v') :: insertE rest k v

/-- `d.pop(k, None)`: remove the entry for the key, if present. -/
def eraseE : EntMap → String → EntMap
  | [], _ => []
  | (k', v') :: rest, k => if k' = k then rest else (k', v') :: eraseE rest k

/-- Dict keys are unique. -/
def keysNodup (m : EntMap) : Prop := (m.map Prod.fst).Nodup

/-- Python truthiness of `d.get(k)`: a present, non-empty value. -/
def truthy : Option String → Bool
  | some v => v ≠ ""
  | none => false

/-! ### Static configuration (`chatbot_pipeline.py` top of file and literals) -/

/-- `REQUIRED_ENTITIES`. -/
def requiredEntities : List String := ["PET_TYPE", "STATE"]

/-- `OPTIONAL_ENTITIES`. -/
def optionalEntities : List String := ["BREED", "COLOR", "SIZE", "GENDER", "AGE", "FURLENGTH"]

/-- The fixed slot set. -/
def slotList : List String := requiredEntities ++ optionalEntities

/-- Modelled from the spec: the repository imports a `synonyms` module (not
under `src/`) providing the table `SYNONYMS : canonical -> variants` covering
the canonical colors black/white/brown/golden/cream/gray/orange/yellow/blue/
red/tabby/calico/tortoiseshell as well as breed and state names, each variant
mapping to one canonical surface form.  The table below realises that
contract with the canonical colors (mapping to themselves plus a few listed
variant spellings) and representative breed/state entries. -/
def SYNONYMS : List (String × List String) :=
  [("black", ["blck"]), ("white", ["wht"]), ("brown", ["brwn"]),
   ("golden", ["gold"]), ("cream", []), ("gray", ["grey"]),
   ("orange", []), ("yellow", []), ("blue", []), ("red", []),
   ("tabby", []), ("calico", []), ("tortoiseshell", ["tortie"]),
   ("Poodle", ["poodle"]), ("Husky", ["husky"]), ("Persian", ["persian"]),
   ("Johor", ["jb", "johor bahru"]), ("Penang", ["penang"])]

/-- Modelled from the spec: the `canonicalize` function of the missing
`synonyms` module maps a recognized variant spelling (or the canonical form
itself, case-insensitively) to the canonical surface form, and leaves
unrecognized words unchanged. -/
def canonicalize (w : String) : String :=
  match SYNONYMS.find? (fun p =>
      pyLower p.1 = pyLower w || (p.2.map pyLower).contains (pyLower w)) with
  | some p => p.1
  | none => w

/-- The color concepts whose synonyms feed the color keyword fallback
(`_extract_entities`, color variant construction). -/
def colorNames : List String :=
  ["black", "white", "brown", "golden", "cream", "gray",
   "orange", "yellow", "blue", "red", "tabby", "calico", "tortoiseshell"]

/-- `color_variants`: lowered canonical color names and their lowered variants. -/
def colorVariants : List String :=
  SYNONYMS.foldr
    (fun p acc =>
      if colorNames.contains (pyLower p.1) then
        (pyLower p.1 :: p.2.map pyLower) ++ acc
      else acc) []

/-- `valid_breeds = [b.lower() for b in SYNONYMS.keys()]`. -/
def validBreeds : List String := SYNONYMS.map (fun p => pyLower p.1)

/-- `species_out_of_scope` (`_extract_entities`). -/
def speciesOutOfScope : List String :=
  ["hamster", "hamsters", "rabbit", "rabbits", "bird", "birds",
   "parrot", "parrots", "fish", "fishes", "snake", "turtle"]

/-- `species_terms` of the breed validation step. -/
def speciesTerms : List String :=
  ["hamster", "rabbit", "bird", "parrot", "fish", "turtle", "snake", "guinea",
   "hamsters", "rabbits", "birds", "parrots", "fishes"]

/-- The out-of-scope species NOTICE text. -/
def noticeSpeciesText : String :=
  "Sorry, I currently only help with cats 🐱 and dogs 🐶. Would you like to search for one of those instead?"

/-- The generic "didn't catch that" NOTICE text. -/
def noticeCatchText : String :=
  "Hmm, I didn’t quite catch that. Could you try again?"

/-- `{"NOTICE": <species scope message>}`. -/
def noticeSpeciesMap : EntMap := [("NOTICE", noticeSpeciesText)]

/-- `{"NOTICE": <didn't catch message>}`. -/
def noticeCatchMap : EntMap := [("NOTICE", noticeCatchText)]

/-- `_get_greeting()`. -/
def greetingText : String :=
  "Hello! 👋 I can help you find cats 🐱 or dogs 🐶 for adoption, or answer pet care questions.\nYou can say things like:\n• I'm looking for a dog in Johor\n• How to care for a cat?\nSo, what would you like to do today?"

/-- The default "didn't understand" fallback reply. -/
def fallbackText : String :=
  "I'm not sure I understood. 🤔 You can say 'I want to adopt a cat in Penang' or 'How to care for a puppy?'."

/-- The small-talk decline acknowledgment. -/
def declineText : String := "Alright 😊 Let me know anytime if you change your mind."

/-- The re-greeting line. -/
def helloAgainText : String := "Hello again! 👋 How can I help you today?"

/-- The pet-care placeholder reply. -/
def petCareText : String := "(RAG) 🧠 Fetching pet care advice... (placeholder)"

/-- The thank-you reply. -/
def thankYouText : String := "You're most welcome! 😊 Anything else you'd like to ask?"

/-- The goodbye reply. -/
def goodbyeText : String := "Goodbye! 👋 Hope you find your perfect furry friend 🐶🐱"

/-- The unknown handler's "give me more detail" nudge. -/
def nudgeDetailText : String :=
  "Hmm, I didn’t quite catch that. Could you tell me a bit more — like 'small cream dog' or 'female cat'?"

/-- The unknown handler's full "tell me pet type and state" nudge. -/
def nudgeFullText : String :=
  "I'm not sure I understood that. Could you tell me what kind of pet and which state you’re in? For example: 'I'm looking for a cat in Johor'."

/-! ### Entity validation (`_extract_entities`, lines 176-252) -/

/-- The lowered text contains an out-of-scope species keyword as a substring. -/
def speciesHitL (lowered : String) : Bool :=
  speciesOutOfScope.any (fun w => strContains lowered w)

/-- `any(w in text.lower() for w in species_out_of_scope)`. -/
def speciesHit (text : String) : Bool := speciesHitL (pyLower text)

/-- Drop `PET_TYPE` when its value is a generic placeholder. -/
def stripPT (m : EntMap) : EntMap :=
  match lookupE m "PET_TYPE" with
  | some v => if pyLower v ∈ ["one", "it", "animal", "pet"] then eraseE m "PET_TYPE" else m
  | none => m

/-- Drop `AGE` when its value is a non-age placeholder. -/
def stripAge (m : EntMap) : EntMap :=
  match lookupE m "AGE" with
  | some v => if pyLower v ∈ ["one", "1", "single", "johor"] then eraseE m "AGE" else m
  | none => m

/-- Placeholder stripping: drop `PET_TYPE` / `AGE` when their values are
generic placeholders. -/
def stripPlaceholders (m : EntMap) : EntMap := stripAge (stripPT m)

/-- Species restriction: `PET_TYPE` present but not dog/cat. -/
def petTypeBad (m : EntMap) : Bool :=
  match lookupE m "PET_TYPE" with
  | some v => !(pyLower v ∈ ["dog", "cat"])
  | none => false

/-- Breed validation: drop `BREED` when it is itself a species term, or
neither a known breed nor vowel-bearing. -/
def breedCheck (m : EntMap) : EntMap :=
  match lookupE m "BREED" with
  | some b =>
    if pyLower b ∈ speciesTerms || (!(pyLower b ∈ validBreeds) && !hasVowelRaw (pyLower b)) then
      eraseE m "BREED"
    else m
  | none => m

/-- Drop any slot whose value has length < 3 or no vowel. -/
def nonsenseFilter (m : EntMap) : EntMap :=
  m.filter (fun kv => !(decide (kv.2.length < 3) || !hasVowel kv.2))

/-- Color keyword fallback: if no `COLOR` slot is set, the first word token of
the text found among the color variants sets `COLOR` to its canonical form. -/
def colorFallback (text : String) (m : EntMap) : EntMap :=
  if lookupE m "COLOR" = none then
    match (wordTokens text).find? (fun w => colorVariants.contains w) with
    | some w => insertE m "COLOR" (canonicalize w)
    | none => m
  else m

/-- The validation chain of `_extract_entities` applied to the raw extractor
output `ents` for input `text` (everything after the `ner_extractor.extract`
call). -/
def validate (ents : EntMap) (text : String) : EntMap :=
  if speciesHit text then noticeSpeciesMap
  else if pyStrip text = "" || (pyStrip text).length < 2 then noticeCatchMap
  else if 4 < text.length && !hasVowel text then noticeCatchMap
  else if petTypeBad (stripPlaceholders ents) then noticeSpeciesMap
  else if (colorFallback text (nonsenseFilter (breedCheck (stripPlaceholders ents)))).isEmpty then
    noticeCatchMap
  else colorFallback text (nonsenseFilter (breedCheck (stripPlaceholders ents)))

/-- `_extract_entities`: call the external extractor, then validate. -/
def extractAndValidate (ex : String → EntMap) (text : String) : EntMap :=
  validate (ex text) text

/-! ### Session and dialogue state machine (`ChatbotPipeline`) -/

/-- `self.session = {"intent": None, "entities": {}, "greeted": False}`. -/
structure Session where
  intent : Option String
  entities : EntMap
  greeted : Bool
deriving Repr, DecidableEq

/-- The initial session. -/
def session0 : Session := ⟨none, [], false⟩

/-- `ask_for(entity)`: the static prompt table. -/
def askFor (entity : String) : String :=
  if entity = "PET_TYPE" then "Are you looking for a dog or a cat?"
  else if entity = "STATE" then "Which state or area are you in?"
  else if entity = "BREED" then "Do you have a preferred breed?"
  else if entity = "COLOR" then "Any color preference?"
  else if entity = "SIZE" then "Do you prefer small or large pets?"
  else if entity = "GENDER" then "Male or female?"
  else if entity = "AGE" then "Puppy/kitten or adult?"
  else if entity = "FURLENGTH" then "Do you prefer short or long fur?"
  else "Could you tell me the " ++ pyLower entity ++ "?"

/-- The truthy detail values of `_confirm_and_search`, in its fixed order. -/
def searchDetails (ents : EntMap) : List String :=
  ([lookupE ents "SIZE", lookupE ents "COLOR", lookupE ents "GENDER",
    lookupE ents "AGE", lookupE ents "FURLENGTH", lookupE ents "BREED"].filterMap id).filter
    (fun v => v ≠ "")

/-- The description of `_confirm_and_search`: details then the pet type, with
an "s" appended when no `BREED` is set. -/
def searchDesc (ents : EntMap) : String :=
  if !truthy (lookupE ents "BREED") then
    pyJoin " " (searchDetails ents ++ [(lookupE ents "PET_TYPE").getD "pet"]) ++ "s"
  else pyJoin " " (searchDetails ents ++ [(lookupE ents "PET_TYPE").getD "pet"])

/-- `_confirm_and_search`, reading the given entities map. -/
def confirmAndSearch (ents : EntMap) : String :=
  "Got it! Searching for " ++ searchDesc ents ++ " in " ++
    (lookupE ents "STATE").getD "your area" ++ "..."

/-- The missing required slots, in fixed order. -/
def requiredMissing (ents : EntMap) : List String :=
  requiredEntities.filter (fun e => lookupE ents e = none)

/-- Lines 127-128 / the trailing part of the merge reply: prompt for the first
missing required slot, else the final search confirmation. -/
def repromptOrConfirm (ents : EntMap) : String :=
  match requiredMissing ents with
  | [] => confirmAndSearch ents
  | e :: _ => askFor e

/-- The confirm line the merge loop emits for one non-pet-type slot. -/
def mergeLine (acc : EntMap) (k v : String) : List String :=
  match lookupE acc k with
  | some p =>
    if p ≠ "" && p ≠ v then
      ["Okay, updated " ++ pyLower (underscoreToSpace k) ++ " to " ++ v ++ "."]
    else if p = "" then ["Added " ++ pyLower (underscoreToSpace k) ++ ": " ++ v ++ "."]
    else []
  | none => ["Added " ++ pyLower (underscoreToSpace k) ++ ": " ++ v ++ "."]

/-- The `for k, v in ents.items()` merge loop of `_update_entities_and_respond`
(lines 273-282): returns the updated entity map and the confirm lines it
appends. -/
def mergeLoop (acc : EntMap) : EntMap → EntMap × List String
  | [] => (acc, [])
  | (k, v) :: rest =>
    if k = "PET_TYPE" || k = "NOTICE" then mergeLoop acc rest
    else
      ((mergeLoop (insertE acc k v) rest).1,
       mergeLine acc k v ++ (mergeLoop (insertE acc k v) rest).2)

/-- The pet-type comparison step of `_update_entities_and_respond` (lines
262-271): the session entities after the pet-type update and the "updated pet
type" line, if any. -/
def petTypeStep (old ents : EntMap) : EntMap × List String :=
  if pyLower ((lookupE ents "PET_TYPE").getD "") ≠ "" then
    if pyLower ((lookupE old "PET_TYPE").getD "") ≠ "" ∧
        pyLower ((lookupE ents "PET_TYPE").getD "") ≠ pyLower ((lookupE old "PET_TYPE").getD "") then
      (insertE (eraseE (eraseE old "BREED") "FURLENGTH") "PET_TYPE"
         (pyLower ((lookupE ents "PET_TYPE").getD "")),
       ["Okay, updated pet type to " ++ pyLower ((lookupE ents "PET_TYPE").getD "") ++ "."])
    else (insertE old "PET_TYPE" (pyLower ((lookupE ents "PET_TYPE").getD "")), [])
  else (old, [])

/-- The pet-type comparison step plus the merge loop (lines 262-282): the
merged entities and all confirm lines. -/
def mergeAll (old ents : EntMap) : EntMap × List String :=
  ((mergeLoop (petTypeStep old ents).1 ents).1,
   (petTypeStep old ents).2 ++ (mergeLoop (petTypeStep old ents).1 ents).2)

/-- `_update_entities_and_respond`. -/
def updateEntitiesAndRespond (s : Session) (ents : EntMap) : Session × String :=
  match lookupE ents "NOTICE" with
  | some n => (s, n)
  | none =>
    ({ s with entities := (mergeAll s.entities ents).1 },
     pyJoin " " (mergeAll s.entities ents).2 ++ " " ++
       repromptOrConfirm (mergeAll s.entities ents).1)

/-- `_handle_find_pet`. -/
def handleFindPet (ex : String → EntMap) (s : Session) (u : String) : Session × String :=
  match lookupE (extractAndValidate ex u) "NOTICE" with
  | some n => (s, n)
  | none =>
    if !(extractAndValidate ex u).isEmpty then
      updateEntitiesAndRespond s (extractAndValidate ex u)
    else (s, repromptOrConfirm s.entities)

/-- The pseudo-sentence of the unknown handler:
`f"I want a {token} {session entities PET_TYPE or 'pet'}"`. -/
def pseudoSentence (s : Session) (token : String) : String :=
  "I want a " ++ token ++ " " ++ (lookupE s.entities "PET_TYPE").getD "pet"

/-- The text the unknown handler's first attempt extracts from: the
pseudo-sentence exactly when the stripped input is a single token of length
greater than 2, else the input itself (lines 136-143). -/
def firstTryText (s : Session) (u : String) : String :=
  if (pySplit (pyStrip u)).length = 1 && 2 < (pyStrip u).length then
    pseudoSentence s (pyStrip u)
  else u

/-- The "second try" and fallbacks of `_handle_unknown` (lines 147-165). -/
def unknownSecondTry (ex : String → EntMap) (s : Session) (u : String) : Session × String :=
  match lookupE (extractAndValidate ex u) "NOTICE" with
  | some n => (s, n)
  | none =>
    if !(extractAndValidate ex u).isEmpty then updateEntitiesAndRespond s (extractAndValidate ex u)
    else if requiredEntities.any (fun e => truthy (lookupE s.entities e)) then
      (s, nudgeDetailText)
    else (s, nudgeFullText)

/-- `_handle_unknown`. -/
def handleUnknown (ex : String → EntMap) (s : Session) (u : String) : Session × String :=
  if s.intent = some "find_pet" then
    if (pySplit u).length ≤ 2 then
      if !(extractAndValidate ex (firstTryText s u)).isEmpty then
        updateEntitiesAndRespond s (extractAndValidate ex (firstTryText s u))
      else unknownSecondTry ex s u
    else unknownSecondTry ex s u
  else (s, fallbackText)

/-- `_is_new_intent`. -/
def isNewIntent (intent : String) (prev : Option String) : Bool :=
  decide (intent ≠ "unknown") && decide (prev ≠ none) &&
    decide (prev ≠ some "unknown") && decide (prev ≠ some intent)

/-- Lines 92-96: reset the session on an intent switch, then record the
intent. -/
def applyIntentSwitch (s : Session) (intent : String) : Session :=
  if isNewIntent intent s.intent then (⟨some intent, [], true⟩ : Session)
  else { s with intent := some intent }

/-- `autocorrect_text` with the fuzzy matcher (`process.extractOne` against
the fixed known-word list) as an oracle `fz : token -> (best match, score)`. -/
def autocorrectText (fz : String → String × ℚ) (text : String) : String :=
  pyJoin " "
    ((pySplit text).map (fun w =>
      if w.length ≤ 3 then w
      else if 85 ≤ (fz w).2 && pyLower (fz w).1 ≠ pyLower w then (fz w).1 else w))

/-- Mark the session greeted (line 82): the session just before the unknown
branch and intent routing. -/
def markGreeted (s : Session) : Session :=
  if s.greeted then s else { s with greeted := true }

/-- Routing by a known, confident intent (lines 99-115). -/
def routeKnown (ex : String → EntMap) (s3 : Session) (intent t : String) : Session × String :=
  if intent = "find_pet" then handleFindPet ex s3 t
  else if intent = "pet_care" then (s3, petCareText)
  else if intent = "thank_you" then (s3, thankYouText)
  else if intent = "greeting" then (s3, helloAgainText)
  else if intent = "goodbye" then (s3, goodbyeText)
  else (s3, fallbackText)

/-- The body of `handle_message` after stripping and autocorrecting, on the
processed text `t`. -/
def handleCore (cls : String → String × ℚ) (ex : String → EntMap)
    (s : Session) (t : String) : Session × String :=
  if pyLower t ∈ ["no", "nope", "nah"] then (s, declineText)
  else if pyLower t ∈ ["hi", "hey", "hello"] then ({ s with greeted := true }, helloAgainText)
  else if s.greeted = false ∧ (cls t).1 = "greeting" then (markGreeted s, greetingText)
  else if (cls t).1 = "unknown" ∨ (cls t).2 < mkRat 55 100 then
    handleUnknown ex (markGreeted s) t
  else routeKnown ex (applyIntentSwitch (markGreeted s) (cls t).1) (cls t).1 t

/-- `handle_message`: strip, greet on empty input, autocorrect, then the core. -/
def handleMessage (cls : String → String × ℚ) (ex : String → EntMap)
    (fz : String → String × ℚ) (s : Session) (raw : String) : Session × String :=
  if pyStrip raw = "" then (s, greetingText)
  else handleCore cls ex s (autocorrectText fz (pyStrip raw))

/-- `reset()`. -/
def resetSession : Session × String := (session0, greetingText)

/-! ### Association-list (dict) lemmas -/

theorem lookupE_mem {m : EntMap} {k v : String} (h : lookupE m k = some v) : (k, v) ∈ m := by
  induction m with
  | nil => simp [lookupE] at h
  | cons kv rest ih =>
    obtain ⟨k', v'⟩ := kv
    by_cases hk : k' = k
    · subst hk
      simp [lookupE] at h
      simp [h]
    · simp [lookupE, hk] at h
      exact List.mem_cons_of_mem _ (ih h)

theorem lookupE_eq_none {m : EntMap} {k : String} :
    lookupE m k = none ↔ ∀ v, (k, v) ∉ m := by
  induction m with
  | nil => simp [lookupE]
  | cons kv rest ih =>
    obtain ⟨k', v'⟩ := kv
    by_cases hk : k' = k
    · subst hk
      constructor
      · intro h
        simp [lookupE] at h
      · intro h
        exact ((h v') (List.mem_cons_self _ _)).elim
    · rw [lookupE, if_neg hk, ih]
      constructor
      · intro h v hv
        rcases List.mem_cons.mp hv with h' | h'
        · injection h' with e1 e2
          exact hk e1.symm
        · exact h v h'
      · intro h v hv
        exact h v (List.mem_cons_of_mem _ hv)

theorem mem_insertE {m : EntMap} {k v : String} {kv : String × String}
    (h : kv ∈ insertE m k v) : kv = (k, v) ∨ kv ∈ m := by
  induction m with
  | nil => simpa [insertE] using h
  | cons kv' rest ih =>
    obtain ⟨k', v'⟩ := kv'
    by_cases hk : k' = k
    · subst hk
      simp [insertE] at h
      rcases h with h | h
      · exact Or.inl h
      · exact Or.inr (List.mem_cons_of_mem _ h)
    · simp [insertE, hk] at h
      rcases h with h | h
      · exact Or.inr (by simp [h])
      · rcases ih h with h' | h'
        · exact Or.inl h'
        · exact Or.inr (List.mem_cons_of_mem _ h')

theorem lookupE_insertE_self (m : EntMap) (k v : String) :
    lookupE (insertE m k v) k = some v := by
  induction m with
  | nil => simp [insertE, lookupE]
  | cons kv rest ih =>
    obtain ⟨k', v'⟩ := kv
    by_cases hk : k' = k
    · subst hk
      simp [insertE, lookupE]
    · simp [insertE, lookupE, hk, ih]

theorem lookupE_insertE_ne (m : EntMap) {k k' : String} (v : String) (h : k' ≠ k) :
    lookupE (insertE m k v) k' = lookupE m k' := by
  have hne : k ≠ k' := fun e => h e.symm
  induction m with
  | nil => simp [insertE, lookupE, hne]
  | cons kv rest ih =>
    obtain ⟨k1, v1⟩ := kv
    by_cases hk : k1 = k
    · subst hk
      simp [insertE, lookupE, hne]
    · simp [insertE, lookupE, hk, ih]

theorem mem_eraseE {m : EntMap} {k : String} {kv : String × String}
    (h : kv ∈ eraseE m k) : kv ∈ m := by
  induction m with
  | nil => simpa [eraseE] using h
  | cons kv' rest ih =>
    obtain ⟨k', v'⟩ := kv'
    by_cases hk : k' = k
    · subst hk
      simp [eraseE] at h
      exact List.mem_cons_of_mem _ h
    · simp [eraseE, hk] at h
      rcases h with h | h
      · simp [h]
      · exact List.mem_cons_of_mem _ (ih h)

theorem lookupE_eraseE_ne (m : EntMap) {k k' : String} (h : k' ≠ k) :
    lookupE (eraseE m k) k' = lookupE m k' := by
  induction m with
  | nil => simp [eraseE]
  | cons kv rest ih =>
    obtain ⟨k1, v1⟩ := kv
    by_cases hk : k1 = k
    · subst hk
      have hne : k1 ≠ k' := fun e => h e.symm
      simp [eraseE, lookupE, hne]
    · by_cases hk1 : k1 = k'
      · subst hk1
        simp [eraseE, lookupE, hk]
      · simp [eraseE, lookupE, hk, hk1, ih]

theorem keysNodup_cons {k v : String} {rest : EntMap} :
    keysNodup ((k, v) :: rest) ↔ (∀ w, (k, w) ∉ rest) ∧ keysNodup rest := by
  simp only [keysNodup, List.map_cons, List.nodup_cons]
  constructor
  · rintro ⟨h1, h2⟩
    refine ⟨fun w hw => h1 ?_, h2⟩
    exact List.mem_map_of_mem _ hw
  · rintro ⟨h1, h2⟩
    refine ⟨fun hmem => ?_, h2⟩
    obtain ⟨⟨k', w⟩, hkw, he⟩ := List.mem_map.mp hmem
    exact h1 w (by simpa [← he] using hkw)

theorem lookupE_eraseE_self {m : EntMap} {k : String} (h : keysNodup m) :
    lookupE (eraseE m k) k = none := by
  induction m with
  | nil => simp [eraseE, lookupE]
  | cons kv rest ih =>
    obtain ⟨k1, v1⟩ := kv
    rw [keysNodup_cons] at h
    by_cases hk : k1 = k
    · subst hk
      simp only [eraseE, if_pos rfl]
      exact lookupE_eq_none.mpr h.1
    · simp [eraseE, lookupE, hk, ih h.2]

theorem keysNodup_insertE {m : EntMap} (k v : String) (h : keysNodup m) :
    keysNodup (insertE m k v) := by
  induction m with
  | nil => simp [insertE, keysNodup]
  | cons kv rest ih =>
    obtain ⟨k1, v1⟩ := kv
    rw [keysNodup_cons] at h
    by_cases hk : k1 = k
    · subst hk
      simp only [insertE, if_pos rfl]
      exact keysNodup_cons.mpr h
    · simp only [insertE, hk, if_neg hk]
      refine keysNodup_cons.mpr ⟨fun w hw => ?_, ih h.2⟩
      rcases mem_insertE hw with h' | h'
      · injection h' with e1 e2
        exact hk e1
      · exact h.1 w h'

theorem keysNodup_eraseE {m : EntMap} (k : String) (h : keysNodup m) :
    keysNodup (eraseE m k) := by
  induction m with
  | nil => simpa [eraseE] using h
  | cons kv rest ih =>
    obtain ⟨k1, v1⟩ := kv
    rw [keysNodup_cons] at h
    by_cases hk : k1 = k
    · subst hk
      simpa [eraseE] using h.2
    · simp only [eraseE, if_neg hk]
      exact keysNodup_cons.mpr ⟨fun w hw => h.1 w (mem_eraseE hw), ih h.2⟩

theorem keysNodup_filter {m : EntMap} (p : String × String → Bool) (h : keysNodup m) :
    keysNodup (m.filter p) := by
  induction m with
  | nil => simpa [keysNodup] using h
  | cons kv rest ih =>
    obtain ⟨k1, v1⟩ := kv
    rw [keysNodup_cons] at h
    by_cases hp : p (k1, v1)
    · rw [List.filter_cons_of_pos hp]
      exact keysNodup_cons.mpr
        ⟨fun w hw => h.1 w (List.mem_filter.mp hw).1, ih h.2⟩
    · rw [List.filter_cons_of_neg (by simpa using hp)]
      exact ih h.2

theorem insertE_of_lookupE {m : EntMap} {k v : String} (h : lookupE m k = some v) :
    insertE m k v = m := by
  induction m with
  | nil => simp [lookupE] at h
  | cons kv rest ih =>
    obtain ⟨k1, v1⟩ := kv
    by_cases hk : k1 = k
    · subst hk
      obtain rfl : v1 = v := by simpa [lookupE] using h
      simp [insertE]
    · simp only [lookupE, if_neg hk] at h
      simp [insertE, hk, ih h]

theorem lookupE_of_mem_nodup {m : EntMap} {k v : String}
    (hn : keysNodup m) (h : (k, v) ∈ m) : lookupE m k = some v := by
  induction m with
  | nil => simp at h
  | cons kv rest ih =>
    obtain ⟨k1, v1⟩ := kv
    rw [keysNodup_cons] at hn
    rcases List.mem_cons.mp h with h' | h'
    · injection h' with e1 e2
      subst e1; subst e2
      simp [lookupE]
    · by_cases hk : k1 = k
      · subst hk
        exact (hn.1 v h').elim
      · simp [lookupE, hk, ih hn.2 h']

/-! ### Character and string lemmas -/

theorem charOfNat_toNat {n : Nat} (h1 : 97 ≤ n) (h2 : n ≤ 122) :
    (Char.ofNat n).toNat = n := by
  unfold Char.ofNat Char.ofNatAux
  rw [dif_pos (by simp [Nat.isValidChar]; omega)]
  simp [Char.toNat, UInt32.ofNat', UInt32.toNat, BitVec.toNat_ofNatLt]

theorem not_ws_of_toNat {x : Char} (h32 : x.toNat ≠ 32) (h9 : x.toNat ≠ 9)
    (h13 : x.toNat ≠ 13) (h10 : x.toNat ≠ 10) : x.isWhitespace = false := by
  have e1 : x ≠ ' ' := fun e => h32 (by rw [e]; decide)
  have e2 : x ≠ '\t' := fun e => h9 (by rw [e]; decide)
  have e3 : x ≠ '\r' := fun e => h13 (by rw [e]; decide)
  have e4 : x ≠ '\n' := fun e => h10 (by rw [e]; decide)
  simp [Char.isWhitespace, e1, e2, e3, e4]

theorem toLower_eq_ite (c : Char) :
    c.toLower = if c.toNat ≥ 65 ∧ c.toNat ≤ 90 then Char.ofNat (c.toNat + 32) else c := rfl

theorem ws_toLower (c : Char) : pyWS c.toLower = pyWS c := by
  unfold pyWS
  by_cases h : c.toNat ≥ 65 ∧ c.toNat ≤ 90
  · rw [toLower_eq_ite, if_pos h]
    have ht : (Char.ofNat (c.toNat + 32)).toNat = c.toNat + 32 :=
      charOfNat_toNat (by omega) (by omega)
    rw [not_ws_of_toNat (x := c) (by omega) (by omega) (by omega) (by omega),
      not_ws_of_toNat (by rw [ht]; omega) (by rw [ht]; omega) (by rw [ht]; omega)
        (by rw [ht]; omega)]
  · rw [toLower_eq_ite, if_neg h]

theorem string_eq_of_data {s t : String} (h : s.data = t.data) : s = t := by
  cases s
  cases t
  exact congrArg String.mk h

theorem pyLower_data (s : String) : (pyLower s).data = s.data.map Char.toLower := rfl

theorem pyStrip_data (s : String) : (pyStrip s).data = stripChars s.data := rfl

theorem pyLower_ne_empty {s : String} (h : s ≠ "") : pyLower s ≠ "" := by
  intro he
  apply h
  have h2 : (pyLower s).data = [] := by rw [he]
  rw [pyLower_data] at h2
  have h3 : s.data = [] := by
    cases hd : s.data with
    | nil => rfl
    | cons x xs =>
      rw [hd] at h2
      simp at h2
  exact string_eq_of_data h3

theorem leadsWith_iff {pat l : List Char} :
    leadsWith pat l = true ↔ ∃ rest, l = pat ++ rest := by
  induction pat generalizing l with
  | nil => simp [leadsWith]
  | cons a as ih =>
    cases l with
    | nil => simp [leadsWith]
    | cons b bs =>
      simp only [leadsWith, Bool.and_eq_true, decide_eq_true_eq, ih]
      constructor
      · rintro ⟨rfl, rest, rfl⟩
        exact ⟨rest, rfl⟩
      · rintro ⟨rest, h⟩
        injection h with e1 e2
        exact ⟨e1.symm, rest, e2⟩

theorem hasSegment_iff {pat l : List Char} : hasSegment pat l = true ↔ SegIn pat l := by
  induction l with
  | nil =>
    simp only [hasSegment, SegIn, List.isEmpty_iff]
    constructor
    · rintro rfl
      exact ⟨[], [], rfl⟩
    · rintro ⟨a, b, h⟩
      rcases List.append_eq_nil.mp h.symm with ⟨h1, h2⟩
      exact (List.append_eq_nil.mp h1).2
  | cons c rest ih =>
    simp only [hasSegment, Bool.or_eq_true, leadsWith_iff, ih]
    constructor
    · rintro (⟨r, hr⟩ | ⟨a, b, hb⟩)
      · exact ⟨[], r, by simpa using hr⟩
      · exact ⟨c :: a, b, by simp [hb]⟩
    · rintro ⟨a, b, h⟩
      cases a with
      | nil =>
        exact Or.inl ⟨b, by simpa using h⟩
      | cons a0 as =>
        injection h with e1 e2
        exact Or.inr ⟨as, b, e2⟩

theorem segIn_appendL {p l : List Char} (x : List Char) (h : SegIn p l) : SegIn p (x ++ l) := by
  obtain ⟨a, b, rfl⟩ := h
  exact ⟨x ++ a, b, by simp⟩

theorem segIn_appendR {p l : List Char} (x : List Char) (h : SegIn p l) : SegIn p (l ++ x) := by
  obtain ⟨a, b, rfl⟩ := h
  exact ⟨a, b ++ x, by simp⟩

theorem segIn_dropWhile {w l : List Char} (hne : w ≠ [])
    (hws : ∀ c ∈ w, pyWS c = false) (h : SegIn w l) :
    SegIn w (l.dropWhile pyWS) := by
  induction l with
  | nil =>
    obtain ⟨a, b, hab⟩ := h
    rcases List.append_eq_nil.mp hab.symm with ⟨h1, h2⟩
    exact absurd (List.append_eq_nil.mp h1).2 hne
  | cons c cs ih =>
    rw [List.dropWhile_cons]
    by_cases hc : pyWS c
    · rw [if_pos hc]
      apply ih
      obtain ⟨a, b, hab⟩ := h
      cases a with
      | nil =>
        cases w with
        | nil => exact (hne rfl).elim
        | cons w0 ws' =>
          injection hab with e1 e2
          rw [e1] at hc
          rw [hws w0 (List.mem_cons_self _ _)] at hc
          exact (Bool.false_ne_true hc).elim
      | cons a0 as =>
        injection hab with e1 e2
        exact ⟨as, b, e2⟩
    · rw [if_neg hc]
      exact h

theorem segIn_reverse {w l : List Char} (h : SegIn w l) : SegIn w.reverse l.reverse := by
  obtain ⟨a, b, rfl⟩ := h
  exact ⟨b.reverse, a.reverse, by simp⟩

theorem segIn_stripChars {w l : List Char} (hne : w ≠ [])
    (hws : ∀ c ∈ w, pyWS c = false) (h : SegIn w l) :
    SegIn w (stripChars l) := by
  unfold stripChars
  have h1 := segIn_dropWhile hne hws h
  have h2 := segIn_reverse h1
  have h3 := segIn_dropWhile (by simpa using hne)
    (fun c hc => hws c (List.mem_reverse.mp hc)) h2
  have h4 := segIn_reverse h3
  simpa using h4

theorem stripChars_map_toLower (l : List Char) :
    stripChars (l.map Char.toLower) = (stripChars l).map Char.toLower := by
  have hcomp : pyWS ∘ Char.toLower = pyWS := funext ws_toLower
  unfold stripChars
  rw [List.dropWhile_map, hcomp, ← List.map_reverse, List.dropWhile_map, hcomp,
    ← List.map_reverse]

/-! ### Properties of the validation chain -/

/-- The nonsense-token guard on slot values: length at least 3 and a vowel. -/
def valueOk (v : String) : Prop := 3 ≤ v.length ∧ hasVowel v = true

instance (v : String) : Decidable (valueOk v) := by
  unfold valueOk
  infer_instance

instance (m : EntMap) : Decidable (keysNodup m) := by
  unfold keysNodup
  infer_instance

/-- What survives validation when no NOTICE fires: every value passes the
nonsense guard, any `PET_TYPE` is dog or cat up to case, and the map is
non-empty. -/
def ExtractOk (m : EntMap) : Prop :=
  (∀ kv ∈ m, valueOk kv.2) ∧
  (∀ v, ("PET_TYPE", v) ∈ m → pyLower v = "dog" ∨ pyLower v = "cat") ∧
  m ≠ []

theorem mem_stripPT {m : EntMap} {kv : String × String} (h : kv ∈ stripPT m) : kv ∈ m := by
  unfold stripPT at h
  split at h
  · split at h
    · exact mem_eraseE h
    · exact h
  · exact h

theorem mem_stripAge {m : EntMap} {kv : String × String} (h : kv ∈ stripAge m) : kv ∈ m := by
  unfold stripAge at h
  split at h
  · split at h
    · exact mem_eraseE h
    · exact h
  · exact h

theorem mem_breedCheck {m : EntMap} {kv : String × String} (h : kv ∈ breedCheck m) : kv ∈ m := by
  unfold breedCheck at h
  split at h
  · split at h
    · exact mem_eraseE h
    · exact h
  · exact h

theorem keysNodup_stripPT {m : EntMap} (h : keysNodup m) : keysNodup (stripPT m) := by
  unfold stripPT
  split
  · split
    · exact keysNodup_eraseE _ h
    · exact h
  · exact h

theorem keysNodup_stripAge {m : EntMap} (h : keysNodup m) : keysNodup (stripAge m) := by
  unfold stripAge
  split
  · split
    · exact keysNodup_eraseE _ h
    · exact h
  · exact h

theorem keysNodup_breedCheck {m : EntMap} (h : keysNodup m) : keysNodup (breedCheck m) := by
  unfold breedCheck
  split
  · split
    · exact keysNodup_eraseE _ h
    · exact h
  · exact h

theorem nonsenseFilter_mem {m : EntMap} {kv : String × String} (h : kv ∈ nonsenseFilter m) :
    kv ∈ m ∧ valueOk kv.2 := by
  unfold nonsenseFilter at h
  have hm := List.mem_filter.mp h
  refine ⟨hm.1, ?_⟩
  have hb := hm.2
  rw [Bool.not_eq_true', Bool.or_eq_false_iff] at hb
  refine ⟨?_, ?_⟩
  · have h1 := of_decide_eq_false hb.1
    omega
  · have h2 := hb.2
    cases hv : hasVowel kv.2
    · rw [hv] at h2
      simp at h2
    · rfl

/-- Canonical colors produced by the fallback pass the nonsense guard. -/
theorem colorVariants_canon_ok : ∀ w ∈ colorVariants, valueOk (canonicalize w) := by decide

/-- The out-of-scope keywords are non-empty and contain no whitespace. -/
theorem speciesOutOfScope_words :
    ∀ w ∈ speciesOutOfScope, w.data ≠ [] ∧ ∀ c ∈ w.data, pyWS c = false := by decide

theorem speciesHit_pyStrip {t : String} (h : speciesHit t = true) :
    speciesHit (pyStrip t) = true := by
  unfold speciesHit speciesHitL at h ⊢
  rw [List.any_eq_true] at h ⊢
  obtain ⟨w, hw, hseg⟩ := h
  refine ⟨w, hw, ?_⟩
  unfold strContains at hseg ⊢
  rw [hasSegment_iff] at hseg ⊢
  have hfacts := speciesOutOfScope_words w hw
  have h1 : SegIn w.data (stripChars (pyLower t).data) :=
    segIn_stripChars hfacts.1 hfacts.2 hseg
  rw [pyLower_data, pyStrip_data, ← stripChars_map_toLower, ← pyLower_data]
  exact h1

theorem speciesHit_appendL {x : String} (a : String) (h : speciesHit x = true) :
    speciesHit (a ++ x) = true := by
  unfold speciesHit speciesHitL at h ⊢
  rw [List.any_eq_true] at h ⊢
  obtain ⟨w, hw, hseg⟩ := h
  refine ⟨w, hw, ?_⟩
  unfold strContains at hseg ⊢
  rw [hasSegment_iff] at hseg ⊢
  rw [pyLower_data, String.data_append, List.map_append, ← pyLower_data, ← pyLower_data]
  exact segIn_appendL _ hseg

theorem speciesHit_appendR {x : String} (b : String) (h : speciesHit x = true) :
    speciesHit (x ++ b) = true := by
  unfold speciesHit speciesHitL at h ⊢
  rw [List.any_eq_true] at h ⊢
  obtain ⟨w, hw, hseg⟩ := h
  refine ⟨w, hw, ?_⟩
  unfold strContains at hseg ⊢
  rw [hasSegment_iff] at hseg ⊢
  rw [pyLower_data, String.data_append, List.map_append, ← pyLower_data, ← pyLower_data]
  exact segIn_appendR _ hseg

/-- A species keyword in the raw token propagates into the synthesized
pseudo-sentence of the unknown handler. -/
theorem speciesHit_pseudo {s : Session} {u : String} (h : speciesHit u = true) :
    speciesHit (pseudoSentence s (pyStrip u)) = true := by
  unfold pseudoSentence
  exact speciesHit_appendR _ (speciesHit_appendR _ (speciesHit_appendL _ (speciesHit_pyStrip h)))

/-- With an out-of-scope keyword in the text, validation short-circuits to the
species NOTICE whatever the extractor produced. -/
theorem validate_speciesHit {ents : EntMap} {t : String} (h : speciesHit t = true) :
    validate ents t = noticeSpeciesMap := by
  unfold validate
  rw [if_pos h]

theorem colorFallback_mem {t : String} {m : EntMap} {kv : String × String}
    (h : kv ∈ colorFallback t m) :
    kv ∈ m ∨ (kv.1 = "COLOR" ∧ ∃ w ∈ colorVariants, kv.2 = canonicalize w) := by
  unfold colorFallback at h
  split at h
  · split at h
    case _ w hfind =>
      rcases mem_insertE h with h' | h'
      · right
        have hwmem : w ∈ colorVariants := by
          have hp := List.find?_some hfind
          simpa using hp
        rw [h']
        exact ⟨rfl, w, hwmem, rfl⟩
      · exact Or.inl h'
    case _ => exact Or.inl h
  · exact Or.inl h

theorem keysNodup_colorFallback {t : String} {m : EntMap} (h : keysNodup m) :
    keysNodup (colorFallback t m) := by
  unfold colorFallback
  split
  · split
    · exact keysNodup_insertE _ _ h
    · exact h
  · exact h

/-- Any validation result is one of the two NOTICE maps or a map satisfying
`ExtractOk`. -/
theorem validate_cases {ents : EntMap} {t : String} (hn : keysNodup ents) :
    validate ents t = noticeSpeciesMap ∨ validate ents t = noticeCatchMap ∨
      ExtractOk (validate ents t) := by
  unfold validate
  by_cases h1 : speciesHit t = true
  · rw [if_pos h1]
    exact Or.inl rfl
  rw [if_neg h1]
  by_cases h2 : (pyStrip t = "" || decide ((pyStrip t).length < 2)) = true
  · rw [if_pos h2]
    exact Or.inr (Or.inl rfl)
  rw [if_neg h2]
  by_cases h3 : (4 < t.length && !hasVowel t) = true
  · rw [if_pos h3]
    exact Or.inr (Or.inl rfl)
  rw [if_neg h3]
  by_cases h4 : petTypeBad (stripPlaceholders ents) = true
  · rw [if_pos h4]
    exact Or.inl rfl
  rw [if_neg h4]
  by_cases h5 : (colorFallback t (nonsenseFilter (breedCheck (stripPlaceholders ents)))).isEmpty = true
  · rw [if_pos h5]
    exact Or.inr (Or.inl rfl)
  rw [if_neg h5]
  refine Or.inr (Or.inr ?_)
  have hn1 : keysNodup (stripPlaceholders ents) := keysNodup_stripAge (keysNodup_stripPT hn)
  have hpt1 : ∀ v, ("PET_TYPE", v) ∈ stripPlaceholders ents →
      pyLower v = "dog" ∨ pyLower v = "cat" := by
    intro v hv
    have hl : lookupE (stripPlaceholders ents) "PET_TYPE" = some v :=
      lookupE_of_mem_nodup hn1 hv
    unfold petTypeBad at h4
    rw [hl] at h4
    simp at h4
    by_cases hd : pyLower v = "dog"
    · exact Or.inl hd
    · exact Or.inr (h4 hd)
  refine ⟨?_, ?_, ?_⟩
  · intro kv hkv
    rcases colorFallback_mem hkv with h' | h'
    · exact (nonsenseFilter_mem h').2
    · obtain ⟨_, w, hw, he⟩ := h'
      rw [he]
      exact colorVariants_canon_ok w hw
  · intro v hv
    rcases colorFallback_mem hv with h' | h'
    · exact hpt1 v (mem_breedCheck (nonsenseFilter_mem h').1)
    · simp at h'
  · intro he
    rw [he] at h5
    exact h5 rfl

/-! ### Session invariants -/

/-- The invariants of a session's entity map: no `NOTICE` entry, `PET_TYPE`
is stored lower-cased as dog or cat, every value passes the nonsense guard,
and keys are unique. -/
def EntsInv (m : EntMap) : Prop :=
  (∀ v, ("NOTICE", v) ∉ m) ∧
  (∀ v, ("PET_TYPE", v) ∈ m → v = "dog" ∨ v = "cat") ∧
  (∀ kv ∈ m, valueOk kv.2) ∧
  keysNodup m

/-- The full session invariant: the entity-map invariants, plus the fact that
entities only accumulate while the session intent is `find_pet`. -/
def SInv (s : Session) : Prop :=
  EntsInv s.entities ∧ (s.entities ≠ [] → s.intent = some "find_pet")

/-- The entity extractor returns Python dicts: unique keys, on every input. -/
def ExDict (ex : String → EntMap) : Prop := ∀ t, keysNodup (ex t)

theorem entsInv_nil : EntsInv [] := by
  refine ⟨?_, ?_, ?_, ?_⟩ <;> simp [keysNodup]

theorem entsInv_erase {m : EntMap} (h : EntsInv m) (k : String) : EntsInv (eraseE m k) :=
  ⟨fun v hv => h.1 v (mem_eraseE hv), fun v hv => h.2.1 v (mem_eraseE hv),
   fun kv hkv => h.2.2.1 kv (mem_eraseE hkv), keysNodup_eraseE _ h.2.2.2⟩

theorem entsInv_insert_pt {m : EntMap} (h : EntsInv m) {w : String}
    (hw : w = "dog" ∨ w = "cat") : EntsInv (insertE m "PET_TYPE" w) := by
  obtain ⟨i1, i2, i3, i4⟩ := h
  refine ⟨?_, ?_, ?_, keysNodup_insertE _ _ i4⟩
  · intro x hx
    rcases mem_insertE hx with h' | h'
    · injection h' with e1 e2
      exact absurd e1 (by decide)
    · exact i1 x h'
  · intro x hx
    rcases mem_insertE hx with h' | h'
    · injection h' with e1 e2
      rw [e2]
      exact hw
    · exact i2 x h'
  · intro kv hkv
    rcases mem_insertE hkv with h' | h'
    · rw [h']
      rcases hw with rfl | rfl <;> decide
    · exact i3 kv h'

theorem mergeLoop_entsInv :
    ∀ (ents acc : EntMap), (∀ kv ∈ ents, valueOk kv.2) → EntsInv acc →
      EntsInv (mergeLoop acc ents).1 := by
  intro ents
  induction ents with
  | nil =>
    intro acc _ h
    simpa [mergeLoop] using h
  | cons kv rest ih =>
    intro acc hval h
    obtain ⟨k, v⟩ := kv
    by_cases hk : (k = "PET_TYPE" || k = "NOTICE") = true
    · simp only [mergeLoop, if_pos hk]
      exact ih acc (fun kv hkv => hval kv (List.mem_cons_of_mem _ hkv)) h
    · have hkP : k ≠ "PET_TYPE" := by
        intro e
        rw [e] at hk
        simp at hk
      have hkN : k ≠ "NOTICE" := by
        intro e
        rw [e] at hk
        simp at hk
      simp only [mergeLoop, if_neg hk]
      apply ih
      · exact fun kv hkv => hval kv (List.mem_cons_of_mem _ hkv)
      · obtain ⟨i1, i2, i3, i4⟩ := h
        refine ⟨?_, ?_, ?_, keysNodup_insertE _ _ i4⟩
        · intro w hw
          rcases mem_insertE hw with h' | h'
          · injection h' with e1 e2
            exact hkN e1.symm
          · exact i1 w h'
        · intro w hw
          rcases mem_insertE hw with h' | h'
          · injection h' with e1 e2
            exact (hkP e1.symm).elim
          · exact i2 w h'
        · intro kv hkv
          rcases mem_insertE hkv with h' | h'
          · rw [h']
            exact hval (k, v) (List.mem_cons_self _ _)
          · exact i3 kv h'

theorem mergeLoop_keys :
    ∀ (ents acc : EntMap), (∀ kv ∈ acc, kv.1 ∈ slotList) →
      (∀ kv ∈ ents, kv.1 ∈ slotList ∨ kv.1 = "NOTICE") →
      ∀ kv ∈ (mergeLoop acc ents).1, kv.1 ∈ slotList := by
  intro ents
  induction ents with
  | nil =>
    intro acc hacc _
    simpa [mergeLoop] using hacc
  | cons kv rest ih =>
    intro acc hacc hents
    obtain ⟨k, v⟩ := kv
    by_cases hk : (k = "PET_TYPE" || k = "NOTICE") = true
    · simp only [mergeLoop, if_pos hk]
      exact ih acc hacc (fun kv hkv => hents kv (List.mem_cons_of_mem _ hkv))
    · have hkN : k ≠ "NOTICE" := by
        intro e
        rw [e] at hk
        simp at hk
      have hkS : k ∈ slotList := by
        rcases hents (k, v) (List.mem_cons_self _ _) with h' | h'
        · exact h'
        · exact absurd h' hkN
      simp only [mergeLoop, if_neg hk]
      apply ih
      · intro kv hkv
        rcases mem_insertE hkv with h' | h'
        · rw [h']
          exact hkS
        · exact hacc kv h'
      · exact fun kv hkv => hents kv (List.mem_cons_of_mem _ hkv)

theorem mergeLoop_lookupE_absent :
    ∀ (ents acc : EntMap) (k : String), (∀ v, (k, v) ∉ ents) →
      lookupE (mergeLoop acc ents).1 k = lookupE acc k := by
  intro ents
  induction ents with
  | nil =>
    intro acc k _
    simp [mergeLoop]
  | cons kv rest ih =>
    intro acc k habs
    obtain ⟨k1, v1⟩ := kv
    have hrest : ∀ v, (k, v) ∉ rest := fun v hv => habs v (List.mem_cons_of_mem _ hv)
    by_cases hk : (k1 = "PET_TYPE" || k1 = "NOTICE") = true
    · simp only [mergeLoop, if_pos hk]
      exact ih acc k hrest
    · have hne : k ≠ k1 := by
        intro e
        exact habs v1 (by rw [e]; exact List.mem_cons_self _ _)
      simp only [mergeLoop, if_neg hk]
      rw [ih _ k hrest, lookupE_insertE_ne _ _ hne]

theorem mergeLoop_lookupE_pt :
    ∀ (ents acc : EntMap),
      lookupE (mergeLoop acc ents).1 "PET_TYPE" = lookupE acc "PET_TYPE" := by
  intro ents
  induction ents with
  | nil =>
    intro acc
    simp [mergeLoop]
  | cons kv rest ih =>
    intro acc
    obtain ⟨k1, v1⟩ := kv
    by_cases hk : (k1 = "PET_TYPE" || k1 = "NOTICE") = true
    · simp only [mergeLoop, if_pos hk]
      exact ih acc
    · have hne : ("PET_TYPE" : String) ≠ k1 := by
        intro e
        rw [← e] at hk
        simp at hk
      simp only [mergeLoop, if_neg hk]
      rw [ih _, lookupE_insertE_ne _ _ hne]

theorem pyLower_empty : pyLower "" = "" := by decide

theorem petTypeStep_entsInv {old ents : EntMap} (h : EntsInv old)
    (hpt : ∀ v, ("PET_TYPE", v) ∈ ents → pyLower v = "dog" ∨ pyLower v = "cat") :
    EntsInv (petTypeStep old ents).1 := by
  unfold petTypeStep
  by_cases h1 : pyLower ((lookupE ents "PET_TYPE").getD "") ≠ ""
  · rw [if_pos h1]
    obtain ⟨v, hv⟩ : ∃ v, lookupE ents "PET_TYPE" = some v := by
      cases hl : lookupE ents "PET_TYPE" with
      | none =>
        rw [hl] at h1
        simp [pyLower_empty] at h1
      | some v => exact ⟨v, rfl⟩
    have hgood : pyLower v = "dog" ∨ pyLower v = "cat" := hpt v (lookupE_mem hv)
    rw [hv]
    by_cases h2 : pyLower ((lookupE old "PET_TYPE").getD "") ≠ "" ∧
        pyLower ((some v).getD "") ≠ pyLower ((lookupE old "PET_TYPE").getD "")
    · rw [if_pos h2]
      exact entsInv_insert_pt (entsInv_erase (entsInv_erase h "BREED") "FURLENGTH") hgood
    · rw [if_neg h2]
      exact entsInv_insert_pt h hgood
  · rw [if_neg h1]
    exact h

theorem petTypeStep_keys {old ents : EntMap} (h : ∀ kv ∈ old, kv.1 ∈ slotList) :
    ∀ kv ∈ (petTypeStep old ents).1, kv.1 ∈ slotList := by
  unfold petTypeStep
  have herase2 : ∀ kv ∈ eraseE (eraseE old "BREED") "FURLENGTH", kv.1 ∈ slotList :=
    fun kv hkv => h kv (mem_eraseE (mem_eraseE hkv))
  by_cases h1 : pyLower ((lookupE ents "PET_TYPE").getD "") ≠ ""
  · rw [if_pos h1]
    by_cases h2 : pyLower ((lookupE old "PET_TYPE").getD "") ≠ "" ∧
        pyLower ((lookupE ents "PET_TYPE").getD "") ≠ pyLower ((lookupE old "PET_TYPE").getD "")
    · rw [if_pos h2]
      intro kv hkv
      rcases mem_insertE hkv with h' | h'
      · rw [h']
        show ("PET_TYPE" : String) ∈ slotList
        decide
      · exact herase2 kv h'
    · rw [if_neg h2]
      intro kv hkv
      rcases mem_insertE hkv with h' | h'
      · rw [h']
        show ("PET_TYPE" : String) ∈ slotList
        decide
      · exact h kv h'
  · rw [if_neg h1]
    exact h

theorem mergeAll_entsInv {old ents : EntMap} (h : EntsInv old)
    (hval : ∀ kv ∈ ents, valueOk kv.2)
    (hpt : ∀ v, ("PET_TYPE", v) ∈ ents → pyLower v = "dog" ∨ pyLower v = "cat") :
    EntsInv (mergeAll old ents).1 := by
  unfold mergeAll
  exact mergeLoop_entsInv ents _ hval (petTypeStep_entsInv h hpt)

theorem mergeAll_keys {old ents : EntMap} (h : ∀ kv ∈ old, kv.1 ∈ slotList)
    (hents : ∀ kv ∈ ents, kv.1 ∈ slotList ∨ kv.1 = "NOTICE") :
    ∀ kv ∈ (mergeAll old ents).1, kv.1 ∈ slotList := by
  unfold mergeAll
  exact mergeLoop_keys ents _ (petTypeStep_keys h) hents

theorem update_sinv {s : Session} {ents : EntMap} (hs : SInv s)
    (hint : s.intent = some "find_pet")
    (hok : lookupE ents "NOTICE" = none →
      (∀ kv ∈ ents, valueOk kv.2) ∧
      (∀ v, ("PET_TYPE", v) ∈ ents → pyLower v = "dog" ∨ pyLower v = "cat")) :
    SInv (updateEntitiesAndRespond s ents).1 := by
  cases hN : lookupE ents "NOTICE" with
  | some n =>
    unfold updateEntitiesAndRespond
    simp only [hN]
    exact hs
  | none =>
    unfold updateEntitiesAndRespond
    simp only [hN]
    obtain ⟨hval, hpt⟩ := hok hN
    exact ⟨mergeAll_entsInv hs.1 hval hpt, fun _ => hint⟩

theorem update_keys {s : Session} {ents : EntMap}
    (hk : ∀ kv ∈ s.entities, kv.1 ∈ slotList)
    (hents : lookupE ents "NOTICE" = none → ∀ kv ∈ ents, kv.1 ∈ slotList ∨ kv.1 = "NOTICE") :
    ∀ kv ∈ (updateEntitiesAndRespond s ents).1.entities, kv.1 ∈ slotList := by
  cases hN : lookupE ents "NOTICE" with
  | some n =>
    unfold updateEntitiesAndRespond
    simp only [hN]
    exact hk
  | none =>
    unfold updateEntitiesAndRespond
    simp only [hN]
    exact mergeAll_keys hk (hents hN)

theorem update_intent_greeted (s : Session) (ents : EntMap) :
    (updateEntitiesAndRespond s ents).1.intent = s.intent ∧
    (updateEntitiesAndRespond s ents).1.greeted = s.greeted := by
  cases hN : lookupE ents "NOTICE" with
  | some n => simp [updateEntitiesAndRespond, hN]
  | none => simp [updateEntitiesAndRespond, hN]

theorem update_notice {s : Session} {ents : EntMap} {n : String}
    (h : lookupE ents "NOTICE" = some n) : updateEntitiesAndRespond s ents = (s, n) := by
  unfold updateEntitiesAndRespond
  simp only [h]

/-! ### Handler-level preservation of the session invariant -/

theorem extractAndValidate_eq (ex : String → EntMap) (t : String) :
    extractAndValidate ex t = validate (ex t) t := rfl

theorem extract_hok {ex : String → EntMap} {t : String} (hex : keysNodup (ex t)) :
    lookupE (extractAndValidate ex t) "NOTICE" = none →
      (∀ kv ∈ extractAndValidate ex t, valueOk kv.2) ∧
      (∀ v, ("PET_TYPE", v) ∈ extractAndValidate ex t →
        pyLower v = "dog" ∨ pyLower v = "cat") := by
  intro hN
  rw [extractAndValidate_eq] at hN ⊢
  rcases validate_cases (t := t) hex with h | h | h
  · rw [h] at hN
    simp [noticeSpeciesMap, lookupE] at hN
  · rw [h] at hN
    simp [noticeCatchMap, lookupE] at hN
  · exact ⟨h.1, h.2.1⟩

theorem validate_mem {ents : EntMap} {t : String} {kv : String × String}
    (h : kv ∈ validate ents t) : kv ∈ ents ∨ kv.1 = "COLOR" ∨ kv.1 = "NOTICE" := by
  unfold validate at h
  split at h
  · right
    right
    simp [noticeSpeciesMap] at h
    rw [h]
  · split at h
    · right
      right
      simp [noticeCatchMap] at h
      rw [h]
    · split at h
      · right
        right
        simp [noticeCatchMap] at h
        rw [h]
      · split at h
        · right
          right
          simp [noticeSpeciesMap] at h
          rw [h]
        · split at h
          · right
            right
            simp [noticeCatchMap] at h
            rw [h]
          · rcases colorFallback_mem h with h' | h'
            · exact Or.inl (mem_stripPT (mem_stripAge (mem_breedCheck (nonsenseFilter_mem h').1)))
            · exact Or.inr (Or.inl h'.1)

theorem extract_keys {ex : String → EntMap} {t : String}
    (hexk : ∀ kv ∈ ex t, (kv : String × String).1 ∈ slotList) :
    ∀ kv ∈ extractAndValidate ex t, kv.1 ∈ slotList ∨ kv.1 = "NOTICE" := by
  intro kv hkv
  rw [extractAndValidate_eq] at hkv
  rcases validate_mem hkv with h | h | h
  · exact Or.inl (hexk kv h)
  · rw [h]
    exact Or.inl (by decide)
  · exact Or.inr h

theorem handleFindPet_sinv {ex : String → EntMap} {s : Session} {u : String}
    (hs : SInv s) (hint : s.intent = some "find_pet") (hex : keysNodup (ex u)) :
    SInv (handleFindPet ex s u).1 := by
  unfold handleFindPet
  cases hN : lookupE (extractAndValidate ex u) "NOTICE" with
  | some n =>
    simp only [hN]
    exact hs
  | none =>
    simp only [hN]
    by_cases he : (!(extractAndValidate ex u).isEmpty) = true
    · rw [if_pos he]
      exact update_sinv hs hint (fun hN' => extract_hok hex hN')
    · rw [if_neg he]
      exact hs

theorem unknownSecondTry_sinv {ex : String → EntMap} {s : Session} {u : String}
    (hs : SInv s) (hint : s.intent = some "find_pet") (hex : keysNodup (ex u)) :
    SInv (unknownSecondTry ex s u).1 := by
  unfold unknownSecondTry
  cases hN : lookupE (extractAndValidate ex u) "NOTICE" with
  | some n =>
    simp only [hN]
    exact hs
  | none =>
    simp only [hN]
    by_cases he : (!(extractAndValidate ex u).isEmpty) = true
    · rw [if_pos he]
      exact update_sinv hs hint (fun hN' => extract_hok hex hN')
    · rw [if_neg he]
      split
      · exact hs
      · exact hs

theorem handleUnknown_sinv {ex : String → EntMap} {s : Session} {u : String}
    (hs : SInv s) (hexd : ExDict ex) : SInv (handleUnknown ex s u).1 := by
  unfold handleUnknown
  by_cases hi : s.intent = some "find_pet"
  · rw [if_pos hi]
    by_cases h2 : (pySplit u).length ≤ 2
    · rw [if_pos h2]
      by_cases he : (!(extractAndValidate ex (firstTryText s u)).isEmpty) = true
      · rw [if_pos he]
        exact update_sinv hs hi (fun hN => extract_hok (hexd _) hN)
      · rw [if_neg he]
        exact unknownSecondTry_sinv hs hi (hexd u)
    · rw [if_neg h2]
      exact unknownSecondTry_sinv hs hi (hexd u)
  · rw [if_neg hi]
    exact hs

theorem markGreeted_sinv {s : Session} (hs : SInv s) : SInv (markGreeted s) := by
  unfold markGreeted
  split
  · exact hs
  · exact hs

theorem isNewIntent_false_fp {i : String} (h : isNewIntent i (some "find_pet") = false)
    (hu : i ≠ "unknown") : i = "find_pet" := by
  unfold isNewIntent at h
  simp [hu] at h
  exact h.symm

theorem routeKnown_sinv {ex : String → EntMap} {s3 : Session} {i t : String}
    (hs : SInv s3) (hfp : i = "find_pet" → s3.intent = some "find_pet")
    (hex : keysNodup (ex t)) : SInv (routeKnown ex s3 i t).1 := by
  unfold routeKnown
  by_cases h1 : i = "find_pet"
  · rw [if_pos h1]
    exact handleFindPet_sinv hs (hfp h1) hex
  · rw [if_neg h1]
    split_ifs <;> exact hs

theorem handleCore_sinv {cls : String → String × ℚ} {ex : String → EntMap}
    {s : Session} {t : String} (hs : SInv s) (hexd : ExDict ex) :
    SInv (handleCore cls ex s t).1 := by
  unfold handleCore
  by_cases c1 : pyLower t ∈ ["no", "nope", "nah"]
  · rw [if_pos c1]
    exact hs
  rw [if_neg c1]
  by_cases c2 : pyLower t ∈ ["hi", "hey", "hello"]
  · rw [if_pos c2]
    exact hs
  rw [if_neg c2]
  by_cases c3 : s.greeted = false ∧ (cls t).1 = "greeting"
  · rw [if_pos c3]
    exact markGreeted_sinv hs
  rw [if_neg c3]
  by_cases c4 : (cls t).1 = "unknown" ∨ (cls t).2 < mkRat 55 100
  · rw [if_pos c4]
    exact handleUnknown_sinv (markGreeted_sinv hs) hexd
  rw [if_neg c4]
  have hu : (cls t).1 ≠ "unknown" := fun e => c4 (Or.inl e)
  have hs1 : SInv (markGreeted s) := markGreeted_sinv hs
  unfold applyIntentSwitch
  by_cases hn : isNewIntent (cls t).1 (markGreeted s).intent = true
  · rw [if_pos hn]
    apply routeKnown_sinv
    · exact ⟨entsInv_nil, fun h => absurd rfl h⟩
    · intro h1
      simp [h1]
    · exact hexd t
  · rw [if_neg hn]
    apply routeKnown_sinv
    · refine ⟨hs1.1, fun hne => ?_⟩
      have hfp : (markGreeted s).intent = some "find_pet" := hs1.2 hne
      rw [hfp] at hn
      have := isNewIntent_false_fp (Bool.not_eq_true _ ▸ hn : isNewIntent (cls t).1 (some "find_pet") = false) hu
      simp [this]
    · intro h1
      simp [h1]
    · exact hexd t

theorem handleMessage_sinv {cls : String → String × ℚ} {ex : String → EntMap}
    {fz : String → String × ℚ} {s : Session} {raw : String}
    (hs : SInv s) (hexd : ExDict ex) : SInv (handleMessage cls ex fz s raw).1 := by
  unfold handleMessage
  split
  · exact hs
  · exact handleCore_sinv hs hexd

/-! ### Reachability -/

/-- Sessions reachable from the initial session by `handle_message` turns with
arbitrary collaborator behaviour; `okE` may further constrain the extractor
oracles used along the way. -/
inductive ReachableE (okE : (String → EntMap) → Prop) : Session → Prop where
  | init : ReachableE okE session0
  | step (s : Session) (cls : String → String × ℚ) (ex : String → EntMap)
      (fz : String → String × ℚ) (raw : String) :
      ReachableE okE s → okE ex → ExDict ex →
      ReachableE okE (handleMessage cls ex fz s raw).1

/-- Reachable sessions: any classifier and fuzzy-matcher behaviour, any
extractor that returns dicts. -/
def Reachable : Session → Prop := ReachableE (fun _ => True)

theorem reachableE_sinv {okE : (String → EntMap) → Prop} {s : Session}
    (h : ReachableE okE s) : SInv s := by
  induction h with
  | init => exact ⟨entsInv_nil, fun h' => absurd rfl h'⟩
  | step s cls ex fz raw _ _ hdict ih => exact handleMessage_sinv ih hdict

/-- Extractors whose outputs only use keys from the fixed slot set. -/
def ExSlots (ex : String → EntMap) : Prop :=
  ∀ t, ∀ kv ∈ ex t, (kv : String × String).1 ∈ slotList

theorem handleFindPet_keys {ex : String → EntMap} {s : Session} {u : String}
    (hk : ∀ kv ∈ s.entities, (kv : String × String).1 ∈ slotList)
    (hexk : ∀ kv ∈ ex u, (kv : String × String).1 ∈ slotList) :
    ∀ kv ∈ (handleFindPet ex s u).1.entities, kv.1 ∈ slotList := by
  unfold handleFindPet
  cases hN : lookupE (extractAndValidate ex u) "NOTICE" with
  | some n =>
    simp only [hN]
    exact hk
  | none =>
    simp only [hN]
    by_cases he : (!(extractAndValidate ex u).isEmpty) = true
    · rw [if_pos he]
      exact update_keys hk (fun _ => extract_keys hexk)
    · rw [if_neg he]
      exact hk

theorem unknownSecondTry_keys {ex : String → EntMap} {s : Session} {u : String}
    (hk : ∀ kv ∈ s.entities, (kv : String × String).1 ∈ slotList)
    (hexk : ∀ kv ∈ ex u, (kv : String × String).1 ∈ slotList) :
    ∀ kv ∈ (unknownSecondTry ex s u).1.entities, kv.1 ∈ slotList := by
  unfold unknownSecondTry
  cases hN : lookupE (extractAndValidate ex u) "NOTICE" with
  | some n =>
    simp only [hN]
    exact hk
  | none =>
    simp only [hN]
    by_cases he : (!(extractAndValidate ex u).isEmpty) = true
    · rw [if_pos he]
      exact update_keys hk (fun _ => extract_keys hexk)
    · rw [if_neg he]
      split
      · exact hk
      · exact hk

theorem handleUnknown_keys {ex : String → EntMap} {s : Session} {u : String}
    (hk : ∀ kv ∈ s.entities, (kv : String × String).1 ∈ slotList)
    (hexk : ExSlots ex) :
    ∀ kv ∈ (handleUnknown ex s u).1.entities, kv.1 ∈ slotList := by
  unfold handleUnknown
  by_cases hi : s.intent = some "find_pet"
  · rw [if_pos hi]
    by_cases h2 : (pySplit u).length ≤ 2
    · rw [if_pos h2]
      by_cases he : (!(extractAndValidate ex (firstTryText s u)).isEmpty) = true
      · rw [if_pos he]
        exact update_keys hk (fun _ => extract_keys (hexk _))
      · rw [if_neg he]
        exact unknownSecondTry_keys hk (hexk u)
    · rw [if_neg h2]
      exact unknownSecondTry_keys hk (hexk u)
  · rw [if_neg hi]
    exact hk

theorem routeKnown_keys {ex : String → EntMap} {s3 : Session} {i t : String}
    (hk : ∀ kv ∈ s3.entities, (kv : String × String).1 ∈ slotList)
    (hexk : ∀ kv ∈ ex t, (kv : String × String).1 ∈ slotList) :
    ∀ kv ∈ (routeKnown ex s3 i t).1.entities, kv.1 ∈ slotList := by
  unfold routeKnown
  by_cases h1 : i = "find_pet"
  · rw [if_pos h1]
    exact handleFindPet_keys hk hexk
  · rw [if_neg h1]
    split_ifs <;> exact hk

theorem handleCore_keys {cls : String → String × ℚ} {ex : String → EntMap}
    {s : Session} {t : String}
    (hk : ∀ kv ∈ s.entities, (kv : String × String).1 ∈ slotList)
    (hexk : ExSlots ex) :
    ∀ kv ∈ (handleCore cls ex s t).1.entities, kv.1 ∈ slotList := by
  unfold handleCore
  by_cases c1 : pyLower t ∈ ["no", "nope", "nah"]
  · rw [if_pos c1]
    exact hk
  rw [if_neg c1]
  by_cases c2 : pyLower t ∈ ["hi", "hey", "hello"]
  · rw [if_pos c2]
    exact hk
  rw [if_neg c2]
  by_cases c3 : s.greeted = false ∧ (cls t).1 = "greeting"
  · rw [if_pos c3]
    unfold markGreeted
    split
    · exact hk
    · exact hk
  rw [if_neg c3]
  have hk1 : ∀ kv ∈ (markGreeted s).entities, (kv : String × String).1 ∈ slotList := by
    unfold markGreeted
    split
    · exact hk
    · exact hk
  by_cases c4 : (cls t).1 = "unknown" ∨ (cls t).2 < mkRat 55 100
  · rw [if_pos c4]
    exact handleUnknown_keys hk1 hexk
  rw [if_neg c4]
  unfold applyIntentSwitch
  by_cases hn : isNewIntent (cls t).1 (markGreeted s).intent = true
  · rw [if_pos hn]
    exact routeKnown_keys (by simp) (hexk t)
  · rw [if_neg hn]
    exact routeKnown_keys hk1 (hexk t)

theorem handleMessage_keys {cls : String → String × ℚ} {ex : String → EntMap}
    {fz : String → String × ℚ} {s : Session} {raw : String}
    (hk : ∀ kv ∈ s.entities, (kv : String × String).1 ∈ slotList)
    (hexk : ExSlots ex) :
    ∀ kv ∈ (handleMessage cls ex fz s raw).1.entities, kv.1 ∈ slotList := by
  unfold handleMessage
  split
  · exact hk
  · exact handleCore_keys hk hexk

theorem reachableE_keys {s : Session} (h : ReachableE ExSlots s) :
    ∀ kv ∈ s.entities, (kv : String × String).1 ∈ slotList := by
  induction h with
  | init => simp [session0]
  | step s cls ex fz raw _ hok _ ih => exact handleMessage_keys ih hok

/-! ### Further helper lemmas -/

theorem markGreeted_intent (s : Session) : (markGreeted s).intent = s.intent := by
  unfold markGreeted
  split <;> rfl

theorem markGreeted_entities (s : Session) : (markGreeted s).entities = s.entities := by
  unfold markGreeted
  split <;> rfl

theorem pyJoin_cons (sep a : String) (l : List String) :
    ∃ r : String, pyJoin sep (a :: l) = a ++ r := by
  cases l with
  | nil => exact ⟨"", by simp [pyJoin]⟩
  | cons b bs => exact ⟨sep ++ pyJoin sep (b :: bs), by simp [pyJoin, String.append_assoc]⟩

theorem strContains_append_left {a : String} (b : String) {p : String}
    (h : strContains a p = true) : strContains (a ++ b) p = true := by
  unfold strContains at h ⊢
  rw [hasSegment_iff] at h ⊢
  rw [String.data_append]
  exact segIn_appendR _ h

theorem strContains_append_right {b : String} (a : String) {p : String}
    (h : strContains b p = true) : strContains (a ++ b) p = true := by
  unfold strContains at h ⊢
  rw [hasSegment_iff] at h ⊢
  rw [String.data_append]
  exact segIn_appendL _ h

theorem filterMap_id_map (f : String → Option String) (l : List String) :
    (l.map f).filterMap id = l.filterMap f := by
  induction l with
  | nil => rfl
  | cons a l ih =>
    cases h : f a <;> simp [List.filterMap_cons, h, ih]

/-- Validation never produces an empty map: every branch is a NOTICE map or a
non-empty entity map. -/
theorem validate_isEmpty_false (ents : EntMap) (t : String) :
    (validate ents t).isEmpty = false := by
  unfold validate
  split_ifs with h1 h2 h3 h4 h5
  · rfl
  · rfl
  · rfl
  · rfl
  · rfl
  · simpa using h5

/-- The merge loop over entities whose non-pet-type values already sit in the
accumulator unchanged (and non-empty) does nothing and emits no lines. -/
theorem mergeLoop_id :
    ∀ (ents acc : EntMap), keysNodup ents →
      (∀ k v, k ≠ "PET_TYPE" → k ≠ "NOTICE" → lookupE ents k = some v →
        lookupE acc k = some v ∧ v ≠ "") →
      mergeLoop acc ents = (acc, []) := by
  intro ents
  induction ents with
  | nil =>
    intro acc _ _
    rfl
  | cons kv rest ih =>
    intro acc hnd hl
    obtain ⟨k, v⟩ := kv
    rw [keysNodup_cons] at hnd
    have hrest : ∀ k' v', k' ≠ "PET_TYPE" → k' ≠ "NOTICE" → lookupE rest k' = some v' →
        lookupE acc k' = some v' ∧ v' ≠ "" := by
      intro k' v' hP hN hl'
      have hne : k ≠ k' := by
        intro e
        exact hnd.1 v' (e ▸ lookupE_mem hl')
      exact hl k' v' hP hN (by rw [lookupE, if_neg hne]; exact hl')
    by_cases hk : (k = "PET_TYPE" || k = "NOTICE") = true
    · simp only [mergeLoop, if_pos hk]
      exact ih acc hnd.2 hrest
    · have hkP : k ≠ "PET_TYPE" := by
        intro e
        rw [e] at hk
        simp at hk
      have hkN : k ≠ "NOTICE" := by
        intro e
        rw [e] at hk
        simp at hk
      have hhead : lookupE acc k = some v ∧ v ≠ "" :=
        hl k v hkP hkN (by rw [lookupE, if_pos rfl])
      simp only [mergeLoop, if_neg hk]
      rw [insertE_of_lookupE hhead.1, ih acc hnd.2 hrest]
      unfold mergeLine
      rw [hhead.1]
      simp [hhead.2]

/-! ### Claim theorems -/

/-- C4: `handle_message` replaces the session with a fresh one (intent set to
the new intent, entities empty, greeted true) exactly when the newly
classified intent and the previous session intent are both non-null, both
different from "unknown", and differ from each other (the classified intent
is a string, hence never null); in every other case the accumulated entities
(and the greeted flag) are preserved, only the intent field being recorded. -/
theorem claim_C4_thm (s : Session) (i : String) :
    (isNewIntent i s.intent = true ↔
      i ≠ "unknown" ∧ s.intent ≠ none ∧ s.intent ≠ some "unknown" ∧ s.intent ≠ some i) ∧
    (isNewIntent i s.intent = true →
      applyIntentSwitch s i = ⟨some i, [], true⟩) ∧
    (isNewIntent i s.intent = false →
      applyIntentSwitch s i = ⟨some i, s.entities, s.greeted⟩) := by
  refine ⟨?_, ?_, ?_⟩
  · unfold isNewIntent
    simp [and_assoc]
  · intro h
    unfold applyIntentSwitch
    rw [if_pos h]
  · intro h
    unfold applyIntentSwitch
    rw [if_neg (by simp [h])]

theorem claim_C4_witness :
    applyIntentSwitch ⟨some "find_pet", [("PET_TYPE", "dog")], true⟩ "pet_care" =
      ⟨some "pet_care", [], true⟩ ∧
    applyIntentSwitch ⟨some "find_pet", [("PET_TYPE", "dog")], true⟩ "find_pet" =
      ⟨some "find_pet", [("PET_TYPE", "dog")], true⟩ :=
  ⟨(claim_C4_thm ⟨some "find_pet", [("PET_TYPE", "dog")], true⟩ "pet_care").2.1 (by decide),
   (claim_C4_thm ⟨some "find_pet", [("PET_TYPE", "dog")], true⟩ "find_pet").2.2 (by decide)⟩

/-- The search confirmation as the claim C5 words it: the values of SIZE,
COLOR, GENDER, AGE, FURLENGTH, BREED present in the map, in that fixed order,
followed by the pet type (default "pet"), with an "s" appended to the
trailing pet-type word exactly when no BREED is set, searched in the state
(default "your area"). -/
def confirmSpecC5 (m : EntMap) : String :=
  "Got it! Searching for " ++
    (if lookupE m "BREED" = none then
      pyJoin " " (["SIZE", "COLOR", "GENDER", "AGE", "FURLENGTH", "BREED"].filterMap
        (lookupE m) ++ [(lookupE m "PET_TYPE").getD "pet"]) ++ "s"
    else
      pyJoin " " (["SIZE", "COLOR", "GENDER", "AGE", "FURLENGTH", "BREED"].filterMap
        (lookupE m) ++ [(lookupE m "PET_TYPE").getD "pet"])) ++
    " in " ++ (lookupE m "STATE").getD "your area" ++ "..."

/-- C5: for every session whose entity values are non-empty strings (as
validation guarantees), `confirm_and_search` produces exactly the reply the
claim describes, rendered by `confirmSpecC5`. -/
theorem claim_C5_thm (m : EntMap) (h : ∀ kv ∈ m, (kv : String × String).2 ≠ "") :
    confirmAndSearch m = confirmSpecC5 m := by
  unfold confirmAndSearch confirmSpecC5 searchDesc searchDetails
  have hmap : ([lookupE m "SIZE", lookupE m "COLOR", lookupE m "GENDER", lookupE m "AGE",
      lookupE m "FURLENGTH", lookupE m "BREED"] : List (Option String)) =
      ["SIZE", "COLOR", "GENDER", "AGE", "FURLENGTH", "BREED"].map (lookupE m) := rfl
  rw [hmap, filterMap_id_map]
  have hfil : (["SIZE", "COLOR", "GENDER", "AGE", "FURLENGTH", "BREED"].filterMap
      (lookupE m)).filter (fun v => v ≠ "") =
      ["SIZE", "COLOR", "GENDER", "AGE", "FURLENGTH", "BREED"].filterMap (lookupE m) := by
    apply List.filter_eq_self.mpr
    intro v hv
    rw [List.mem_filterMap] at hv
    obtain ⟨k, _, hk⟩ := hv
    simpa using h _ (lookupE_mem hk)
  rw [hfil]
  cases hb : lookupE m "BREED" with
  | none => simp [truthy, hb]
  | some v =>
    have hv : v ≠ "" := h ("BREED", v) (lookupE_mem hb)
    simp [truthy, hb, hv]

theorem claim_C5_witness :
    confirmAndSearch [("PET_TYPE", "dog"), ("SIZE", "small"), ("COLOR", "brown"),
        ("STATE", "Johor")] =
      confirmSpecC5 [("PET_TYPE", "dog"), ("SIZE", "small"), ("COLOR", "brown"),
        ("STATE", "Johor")] ∧
    confirmAndSearch [("PET_TYPE", "dog"), ("SIZE", "small"), ("COLOR", "brown"),
        ("STATE", "Johor")] = "Got it! Searching for small brown dogs in Johor..." :=
  ⟨claim_C5_thm _ (by decide), by decide⟩

/-- C10: the out-of-scope scan is substring containment on the lowered text,
not whole-word matching: the input "he is selfish" contains no out-of-scope
keyword as a standalone word token, yet `_extract_entities` returns the
species-scope NOTICE for every extractor behaviour. -/
theorem claim_C10_thm :
    speciesOutOfScope.all (fun w => !(wordTokens "he is selfish").contains w) = true ∧
    ∀ ex : String → EntMap, extractAndValidate ex "he is selfish" = noticeSpeciesMap := by
  refine ⟨by decide, fun ex => ?_⟩
  rw [extractAndValidate_eq]
  exact validate_speciesHit (by decide)

/-- The classifier oracle of the C1 counterexample run. -/
def cexC1cls : String → String × ℚ := fun _ => ("find_pet", mkRat 9 10)

/-- An extractor (dict-valued) that emits the out-of-set key `WEIGHT`. -/
def cexC1ex : String → EntMap := fun _ => [("WEIGHT", "heavy"), ("PET_TYPE", "dog")]

/-- A fuzzy matcher that never reaches the replacement threshold. -/
def cexC1fz : String → String × ℚ := fun w => (w, 0)

/-- The session after one `handle_message` turn with the oracles above. -/
def cexC1session : Session :=
  (handleMessage cexC1cls cexC1ex cexC1fz session0 "heavy dog").1

theorem cexC1ex_dict : ExDict cexC1ex :=
  fun _ => (by decide : keysNodup [("WEIGHT", "heavy"), ("PET_TYPE", "dog")])

/-- C1 counterexample: a session reachable in one turn whose entities hold the
key `WEIGHT`, outside the fixed slot set — nothing in the pipeline restricts
extractor-supplied keys to the slot set. -/
theorem claim_C1_counterexample :
    Reachable cexC1session ∧
    ¬(∀ kv ∈ cexC1session.entities, (kv : String × String).1 ∈ slotList) := by
  constructor
  · exact ReachableE.step session0 cexC1cls cexC1ex cexC1fz "heavy dog"
      ReachableE.init trivial cexC1ex_dict
  · decide

/-- C1 (amended): for every reachable session, the entities never contain the
sentinel `NOTICE` and any stored `PET_TYPE` is exactly "dog" or "cat" in
lower case; and provided every extractor output uses only keys from the fixed
slot set, the entities keys stay within the slot set. -/
theorem claim_C1_amended_thm :
    (∀ s, Reachable s →
      (∀ v, ("NOTICE", v) ∉ s.entities) ∧
      (∀ v, ("PET_TYPE", v) ∈ s.entities → v = "dog" ∨ v = "cat")) ∧
    (∀ s, ReachableE ExSlots s → ∀ kv ∈ s.entities, (kv : String × String).1 ∈ slotList) := by
  constructor
  · intro s hs
    have h := reachableE_sinv hs
    exact ⟨h.1.1, h.1.2.1⟩
  · intro s hs
    exact reachableE_keys hs

/-- A well-behaved extractor for the C1/C9 witness runs. -/
def witC1ex : String → EntMap := fun _ => [("PET_TYPE", "dog"), ("STATE", "Johor")]

/-- The session after one `handle_message` turn with the well-behaved
extractor. -/
def witC1session : Session :=
  (handleMessage cexC1cls witC1ex cexC1fz session0 "dog in Johor").1

theorem witC1ex_dict : ExDict witC1ex :=
  fun _ => (by decide : keysNodup [("PET_TYPE", "dog"), ("STATE", "Johor")])

theorem witC1ex_slots : ExSlots witC1ex :=
  fun _ => (by decide :
    ∀ kv ∈ [("PET_TYPE", "dog"), ("STATE", "Johor")], (kv : String × String).1 ∈ slotList)

/-- The witness session is reachable, also under the slot-keyed extractors. -/
theorem witC1session_reachable : Reachable witC1session :=
  ReachableE.step session0 cexC1cls witC1ex cexC1fz "dog in Johor"
    ReachableE.init trivial witC1ex_dict

theorem witC1session_reachable_slots : ReachableE ExSlots witC1session :=
  ReachableE.step session0 cexC1cls witC1ex cexC1fz "dog in Johor"
    ReachableE.init witC1ex_slots witC1ex_dict

theorem claim_C1_witness :
    ((∀ v, ("NOTICE", v) ∉ witC1session.entities) ∧
      (∀ v, ("PET_TYPE", v) ∈ witC1session.entities → v = "dog" ∨ v = "cat")) ∧
    (∀ kv ∈ witC1session.entities, (kv : String × String).1 ∈ slotList) :=
  ⟨claim_C1_amended_thm.1 witC1session witC1session_reachable,
   claim_C1_amended_thm.2 witC1session witC1session_reachable_slots⟩

/-- C9: every value stored in a reachable session's entities has length at
least 3 and contains a vowel; and every non-NOTICE mapping returned by
`_extract_entities` — including any COLOR added by the color inference
fallback — satisfies the same guard. -/
theorem claim_C9_thm :
    (∀ s, Reachable s → ∀ kv ∈ s.entities, valueOk (kv : String × String).2) ∧
    (∀ (ex : String → EntMap) (t : String), ExDict ex →
      extractAndValidate ex t ≠ noticeSpeciesMap →
      extractAndValidate ex t ≠ noticeCatchMap →
      ∀ kv ∈ extractAndValidate ex t, valueOk kv.2) := by
  constructor
  · intro s hs
    exact (reachableE_sinv hs).1.2.2.1
  · intro ex t hd h1 h2
    rw [extractAndValidate_eq] at h1 h2 ⊢
    rcases validate_cases (hd t) with h | h | h
    · exact absurd h h1
    · exact absurd h h2
    · exact h.1

/-- An extractor output exercising the color fallback for the C9 witness. -/
def witC9ex : String → EntMap := fun _ => [("PET_TYPE", "dog"), ("SIZE", "small")]

theorem witC9ex_dict : ExDict witC9ex :=
  fun _ => (by decide : keysNodup [("PET_TYPE", "dog"), ("SIZE", "small")])

theorem claim_C9_witness :
    (∀ kv ∈ witC1session.entities, valueOk (kv : String × String).2) ∧
    (∀ kv ∈ extractAndValidate witC9ex "small brown dog", valueOk kv.2) :=
  ⟨claim_C9_thm.1 witC1session witC1session_reachable,
   claim_C9_thm.2 witC9ex "small brown dog" witC9ex_dict (by decide) (by decide)⟩

/-- C3: in the entity merge step, if the session already holds a (non-empty)
`PET_TYPE` and the validated entities carry a different one (compared
case-insensitively) and no `BREED`/`FURLENGTH` of their own, then `BREED` and
`FURLENGTH` are removed from the session, the reply contains an "updated pet
type" acknowledgment, and `PET_TYPE` is set to the new (lowered) value. -/
theorem claim_C3_thm (s : Session) (ents : EntMap) (p q : String)
    (hnd : keysNodup s.entities)
    (hN : lookupE ents "NOTICE" = none)
    (hsp : lookupE s.entities "PET_TYPE" = some p) (hp : p ≠ "")
    (hq : lookupE ents "PET_TYPE" = some q) (hq0 : q ≠ "")
    (hne : pyLower q ≠ pyLower p)
    (hbe : lookupE ents "BREED" = none) (hfe : lookupE ents "FURLENGTH" = none) :
    lookupE (updateEntitiesAndRespond s ents).1.entities "BREED" = none ∧
    lookupE (updateEntitiesAndRespond s ents).1.entities "FURLENGTH" = none ∧
    lookupE (updateEntitiesAndRespond s ents).1.entities "PET_TYPE" = some (pyLower q) ∧
    strContains (updateEntitiesAndRespond s ents).2 "updated pet type" = true := by
  have hpts : petTypeStep s.entities ents =
      (insertE (eraseE (eraseE s.entities "BREED") "FURLENGTH") "PET_TYPE" (pyLower q),
       ["Okay, updated pet type to " ++ pyLower q ++ "."]) := by
    unfold petTypeStep
    rw [hq, hsp]
    simp only [Option.getD_some]
    rw [if_pos (pyLower_ne_empty hq0), if_pos ⟨pyLower_ne_empty hp, hne⟩]
  unfold updateEntitiesAndRespond
  simp only [hN]
  unfold mergeAll
  simp only [hpts]
  have hBne : ("BREED" : String) ≠ "PET_TYPE" := by decide
  have hFne : ("FURLENGTH" : String) ≠ "PET_TYPE" := by decide
  have hBFne : ("BREED" : String) ≠ "FURLENGTH" := by decide
  refine ⟨?_, ?_, ?_, ?_⟩
  · rw [mergeLoop_lookupE_absent ents _ "BREED" (lookupE_eq_none.mp hbe),
      lookupE_insertE_ne _ _ hBne, lookupE_eraseE_ne _ hBFne,
      lookupE_eraseE_self hnd]
  · rw [mergeLoop_lookupE_absent ents _ "FURLENGTH" (lookupE_eq_none.mp hfe),
      lookupE_insertE_ne _ _ hFne, lookupE_eraseE_self (keysNodup_eraseE _ hnd)]
  · rw [mergeLoop_lookupE_pt, lookupE_insertE_self]
  · obtain ⟨r, hr⟩ := pyJoin_cons " "
      ("Okay, updated pet type to " ++ pyLower q ++ ".")
      (mergeLoop (insertE (eraseE (eraseE s.entities "BREED") "FURLENGTH") "PET_TYPE"
        (pyLower q)) ents).2
    rw [List.singleton_append, hr]
    have base : strContains "Okay, updated pet type to " "updated pet type" = true := by
      decide
    exact strContains_append_left _
      (strContains_append_left _
        (strContains_append_left _
          (strContains_append_left _ (strContains_append_left _ base))))

theorem claim_C3_witness :
    lookupE (updateEntitiesAndRespond
        ⟨some "find_pet", [("PET_TYPE", "dog"), ("BREED", "poodle")], true⟩
        [("PET_TYPE", "cat")]).1.entities "BREED" = none ∧
    lookupE (updateEntitiesAndRespond
        ⟨some "find_pet", [("PET_TYPE", "dog"), ("BREED", "poodle")], true⟩
        [("PET_TYPE", "cat")]).1.entities "FURLENGTH" = none ∧
    lookupE (updateEntitiesAndRespond
        ⟨some "find_pet", [("PET_TYPE", "dog"), ("BREED", "poodle")], true⟩
        [("PET_TYPE", "cat")]).1.entities "PET_TYPE" = some (pyLower "cat") ∧
    strContains (updateEntitiesAndRespond
        ⟨some "find_pet", [("PET_TYPE", "dog"), ("BREED", "poodle")], true⟩
        [("PET_TYPE", "cat")]).2 "updated pet type" = true :=
  claim_C3_thm ⟨some "find_pet", [("PET_TYPE", "dog"), ("BREED", "poodle")], true⟩
    [("PET_TYPE", "cat")] "dog" "cat" (by decide) (by decide) (by decide) (by decide)
    (by decide) (by decide) (by decide) (by decide) (by decide)

/-- C6: merging validated entities whose values all equal the values already
stored in the session (the session's `PET_TYPE` being stored lower-cased, the
new `PET_TYPE` equal to it up to lowering) changes nothing and emits no
"updated" or "added" acknowledgment line: the merge returns the unchanged
entity map with an empty confirm-line list, and the reply is just the
re-prompt or final confirmation with an empty acknowledgment prefix.  Hence a
second submission of the same valid `find_pet` utterance with identical
extraction results produces no update acknowledgment. -/
theorem claim_C6_thm (s : Session) (ents : EntMap)
    (hnd : keysNodup ents)
    (hN : lookupE ents "NOTICE" = none)
    (heq : ∀ kv ∈ ents, (kv : String × String).2 ≠ "" ∧
      lookupE s.entities kv.1 = some (if kv.1 = "PET_TYPE" then pyLower kv.2 else kv.2))
    (hpt : ∀ v, ("PET_TYPE", v) ∈ s.entities → pyLower v = v) :
    mergeAll s.entities ents = (s.entities, []) ∧
    updateEntitiesAndRespond s ents = (s, " " ++ repromptOrConfirm s.entities) := by
  have hpts : petTypeStep s.entities ents = (s.entities, []) := by
    unfold petTypeStep
    cases hq : lookupE ents "PET_TYPE" with
    | none =>
      simp [pyLower_empty]
    | some v =>
      obtain ⟨hv, hsv⟩ := heq ("PET_TYPE", v) (lookupE_mem hq)
      rw [if_pos rfl] at hsv
      have hv' : v ≠ "" := hv
      have hsv' : lookupE s.entities "PET_TYPE" = some (pyLower v) := hsv
      simp only [Option.getD_some]
      rw [if_pos (pyLower_ne_empty hv'), hsv']
      simp only [Option.getD_some]
      have hfix : pyLower (pyLower v) = pyLower v := hpt _ (lookupE_mem hsv')
      simp only [hfix]
      rw [if_neg (fun h => h.2 rfl), insertE_of_lookupE hsv']
  have hloop : mergeLoop s.entities ents = (s.entities, []) := by
    apply mergeLoop_id ents s.entities hnd
    intro k v hkP _ hl
    obtain ⟨hv, hsv⟩ := heq (k, v) (lookupE_mem hl)
    rw [if_neg hkP] at hsv
    exact ⟨hsv, hv⟩
  have hmerge : mergeAll s.entities ents = (s.entities, []) := by
    unfold mergeAll
    simp [hpts, hloop]
  refine ⟨hmerge, ?_⟩
  unfold updateEntitiesAndRespond
  simp only [hN, hmerge]
  rfl

theorem claim_C6_witness :
    mergeAll [("PET_TYPE", "dog"), ("STATE", "Johor")]
        [("PET_TYPE", "dog"), ("STATE", "Johor")] =
      ([("PET_TYPE", "dog"), ("STATE", "Johor")], []) ∧
    updateEntitiesAndRespond
        ⟨some "find_pet", [("PET_TYPE", "dog"), ("STATE", "Johor")], true⟩
        [("PET_TYPE", "dog"), ("STATE", "Johor")] =
      (⟨some "find_pet", [("PET_TYPE", "dog"), ("STATE", "Johor")], true⟩,
       " " ++ repromptOrConfirm [("PET_TYPE", "dog"), ("STATE", "Johor")]) :=
  claim_C6_thm ⟨some "find_pet", [("PET_TYPE", "dog"), ("STATE", "Johor")], true⟩
    [("PET_TYPE", "dog"), ("STATE", "Johor")] (by decide) (by decide) (by decide)
    (by
      intro v hv
      rcases List.mem_cons.mp hv with h | h
      · injection h with h1 h2
        subst h2
        decide
      · rcases List.mem_cons.mp h with h' | h'
        · injection h' with h1 h2
          exact absurd h1 (by decide)
        · simp at h')

/-- The extractor oracle of the C8 counterexample. -/
def cexC8ex : String → EntMap :=
  fun t => if t = "I want a big pet" then [("SIZE", "big")] else []

/-- C8 counterexample: for the single token "big" of length exactly 3,
`_handle_unknown` synthesizes and validates the pseudo-sentence
"I want a big pet" — the code's guard is `len(token) > 2`, not `> 3` as the
claim states, so a length-3 token is wrapped and its extraction drives the
reply. -/
theorem claim_C8_counterexample :
    firstTryText ⟨some "find_pet", [], true⟩ "big" = "I want a big pet" ∧
    ("big" : String).length = 3 ∧
    (handleUnknown cexC8ex ⟨some "find_pet", [], true⟩ "big").2 =
      "Added size: big. Are you looking for a dog or a cat?" := by
  refine ⟨by decide, by decide, by decide⟩

/-- C8 (amended): in the unknown handler with previous intent `find_pet` and
an input of at most 2 whitespace tokens, the pseudo-sentence
"I want a (token) (current PET_TYPE or 'pet')" is synthesized and validated
exactly when the stripped input is a single token of length greater than 2
(not 3); otherwise the raw input is validated directly.  The first attempt
always yields a non-empty map, so the handler's reply is the merge of its
validation result. -/
theorem claim_C8_amended_thm (s : Session) (u : String) (ex : String → EntMap) :
    ((pySplit (pyStrip u)).length = 1 ∧ 2 < (pyStrip u).length →
      firstTryText s u = pseudoSentence s (pyStrip u)) ∧
    (¬((pySplit (pyStrip u)).length = 1 ∧ 2 < (pyStrip u).length) →
      firstTryText s u = u) ∧
    (s.intent = some "find_pet" → (pySplit u).length ≤ 2 →
      handleUnknown ex s u =
        updateEntitiesAndRespond s (extractAndValidate ex (firstTryText s u))) := by
  refine ⟨?_, ?_, ?_⟩
  · intro h
    unfold firstTryText
    rw [if_pos (by simp [h.1, h.2])]
  · intro h
    unfold firstTryText
    rw [if_neg (by
      intro hb
      simp only [Bool.and_eq_true, decide_eq_true_eq] at hb
      exact h hb)]
  · intro hi h2
    unfold handleUnknown
    rw [if_pos hi, if_pos h2,
      if_pos (by rw [extractAndValidate_eq, validate_isEmpty_false]; rfl)]

theorem claim_C8_witness :
    firstTryText ⟨some "find_pet", [], true⟩ "big" =
      pseudoSentence ⟨some "find_pet", [], true⟩ (pyStrip "big") ∧
    handleUnknown cexC8ex ⟨some "find_pet", [], true⟩ "big" =
      updateEntitiesAndRespond ⟨some "find_pet", [], true⟩
        (extractAndValidate cexC8ex
          (firstTryText ⟨some "find_pet", [], true⟩ "big")) :=
  ⟨(claim_C8_amended_thm ⟨some "find_pet", [], true⟩ "big" cexC8ex).1 (by decide),
   (claim_C8_amended_thm ⟨some "find_pet", [], true⟩ "big" cexC8ex).2.2 (by decide) (by decide)⟩

theorem lookupE_noticeSpecies : lookupE noticeSpeciesMap "NOTICE" = some noticeSpeciesText := rfl

/-- On a turn whose processed text contains an out-of-scope keyword and whose
classification routes into extraction (a confident `find_pet`, or a
low-confidence/unknown result while the session is slot-filling), the reply
is the species NOTICE and the entities are untouched. -/
theorem handleCore_species {cls : String → String × ℚ} {ex : String → EntMap}
    {s : Session} {t : String} (hs : SInv s)
    (hHit : speciesHit t = true)
    (hroute : ((cls t).1 = "find_pet" ∧ ¬((cls t).2 < mkRat 55 100)) ∨
      (((cls t).1 = "unknown" ∨ (cls t).2 < mkRat 55 100) ∧ s.intent = some "find_pet" ∧
        (s.greeted = true ∨ (cls t).1 ≠ "greeting"))) :
    (handleCore cls ex s t).1.entities = s.entities ∧
    (handleCore cls ex s t).2 = noticeSpeciesText := by
  have hc1 : ¬(pyLower t ∈ ["no", "nope", "nah"]) := by
    intro hmem
    have hL : speciesHitL (pyLower t) = true := hHit
    simp only [List.mem_cons, List.not_mem_nil, or_false] at hmem
    rcases hmem with h | h | h <;> rw [h] at hL <;> exact absurd hL (by decide)
  have hc2 : ¬(pyLower t ∈ ["hi", "hey", "hello"]) := by
    intro hmem
    have hL : speciesHitL (pyLower t) = true := hHit
    simp only [List.mem_cons, List.not_mem_nil, or_false] at hmem
    rcases hmem with h | h | h <;> rw [h] at hL <;> exact absurd hL (by decide)
  have hc3 : ¬(s.greeted = false ∧ (cls t).1 = "greeting") := by
    rintro ⟨hg0, hgr⟩
    rcases hroute with ⟨hfp, _⟩ | ⟨_, _, hg⟩
    · rw [hfp] at hgr
      exact absurd hgr (by decide)
    · rcases hg with hg | hg
      · rw [hg0] at hg
        exact absurd hg (by decide)
      · exact hg hgr
  unfold handleCore
  rw [if_neg hc1, if_neg hc2, if_neg hc3]
  rcases hroute with ⟨hfp, hconf⟩ | ⟨hlow, hifp, _⟩
  · have hc4 : ¬((cls t).1 = "unknown" ∨ (cls t).2 < mkRat 55 100) := by
      rintro (h | h)
      · rw [hfp] at h
        exact absurd h (by decide)
      · exact hconf h
    rw [if_neg hc4, hfp]
    unfold routeKnown
    rw [if_pos rfl]
    unfold handleFindPet
    have hev : extractAndValidate ex t = noticeSpeciesMap := by
      rw [extractAndValidate_eq]
      exact validate_speciesHit hHit
    rw [hev]
    simp only [lookupE_noticeSpecies]
    refine ⟨?_, trivial⟩
    unfold applyIntentSwitch
    by_cases hn : isNewIntent "find_pet" (markGreeted s).intent = true
    · rw [if_pos hn]
      by_cases hne : s.entities = []
      · rw [hne]
      · exfalso
        have hfp2 := hs.2 hne
        rw [markGreeted_intent, hfp2] at hn
        exact absurd hn (by decide)
    · rw [if_neg hn]
      exact markGreeted_entities s
  · rw [if_pos hlow]
    have hi : (markGreeted s).intent = some "find_pet" := by
      rw [markGreeted_intent]
      exact hifp
    unfold handleUnknown
    rw [if_pos hi]
    by_cases h2 : (pySplit t).length ≤ 2
    · rw [if_pos h2]
      have hft : speciesHit (firstTryText (markGreeted s) t) = true := by
        unfold firstTryText
        split
        · exact speciesHit_pseudo hHit
        · exact hHit
      have hev1 : extractAndValidate ex (firstTryText (markGreeted s) t) = noticeSpeciesMap := by
        rw [extractAndValidate_eq]
        exact validate_speciesHit hft
      rw [hev1, if_pos (by decide), update_notice lookupE_noticeSpecies]
      exact ⟨markGreeted_entities s, rfl⟩
    · rw [if_neg h2]
      unfold unknownSecondTry
      have hev2 : extractAndValidate ex t = noticeSpeciesMap := by
        rw [extractAndValidate_eq]
        exact validate_speciesHit hHit
      rw [hev2]
      simp only [lookupE_noticeSpecies]
      exact ⟨markGreeted_entities s, trivial⟩

/-- C2: if the text contains an out-of-scope animal keyword (as a substring of
its lowered form), `_extract_entities` returns the species-scope NOTICE for
every extractor behaviour; and on a turn of a reachable session whose
processed input contains such a keyword and whose classification reaches
extraction (a confident `find_pet`, or low-confidence/unknown during
slot-filling, excluding the first-turn greeting return), the reply is exactly
that NOTICE and the session's entities are left unchanged. -/
theorem claim_C2_thm :
    (∀ (ex : String → EntMap) (t : String), speciesHit t = true →
      extractAndValidate ex t = noticeSpeciesMap) ∧
    (∀ (cls : String → String × ℚ) (ex : String → EntMap) (fz : String → String × ℚ)
        (s : Session) (raw : String),
      Reachable s →
      speciesHit (autocorrectText fz (pyStrip raw)) = true →
      (((cls (autocorrectText fz (pyStrip raw))).1 = "find_pet" ∧
          ¬((cls (autocorrectText fz (pyStrip raw))).2 < mkRat 55 100)) ∨
        (((cls (autocorrectText fz (pyStrip raw))).1 = "unknown" ∨
            (cls (autocorrectText fz (pyStrip raw))).2 < mkRat 55 100) ∧
          s.intent = some "find_pet" ∧
          (s.greeted = true ∨ (cls (autocorrectText fz (pyStrip raw))).1 ≠ "greeting"))) →
      (handleMessage cls ex fz s raw).1.entities = s.entities ∧
      (handleMessage cls ex fz s raw).2 = noticeSpeciesText) := by
  constructor
  · intro ex t h
    rw [extractAndValidate_eq]
    exact validate_speciesHit h
  · intro cls ex fz s raw hreach hHit hroute
    have hstrip : ¬(pyStrip raw = "") := by
      intro h0
      rw [h0] at hHit
      have hH0 : speciesHit "" = true := hHit
      exact absurd hH0 (by decide)
    unfold handleMessage
    rw [if_neg hstrip]
    exact handleCore_species (reachableE_sinv hreach) hHit hroute

/-- The classifier of the C2 witness run: a confident `find_pet`. -/
def witC2cls : String → String × ℚ := fun _ => ("find_pet", mkRat 9 10)

/-- A fuzzy matcher below the replacement threshold. -/
def witC2fz : String → String × ℚ := fun w => (w, 0)

/-- An arbitrary extractor output for the C2 witness. -/
def witC2ex : String → EntMap := fun _ => [("PET_TYPE", "hamster")]

theorem claim_C2_witness :
    extractAndValidate witC2ex "I want a hamster" = noticeSpeciesMap ∧
    (handleMessage witC2cls witC2ex witC2fz session0 "I want a hamster").1.entities =
      session0.entities ∧
    (handleMessage witC2cls witC2ex witC2fz session0 "I want a hamster").2 =
      noticeSpeciesText :=
  ⟨claim_C2_thm.1 witC2ex "I want a hamster" (by decide),
   claim_C2_thm.2 witC2cls witC2ex witC2fz session0 "I want a hamster"
     ReachableE.init (by decide) (Or.inl ⟨by decide, by decide⟩)⟩

/-! ### Fallible collaborators: exception propagation (C7)

The same turn logic with collaborators that may raise (`none`): a raised
exception propagates as `.error`, carrying the session state at the moment
the exception escapes `handle_message`. -/

/-- `autocorrect_text` over fallible fuzzy matching: `none` when the matcher
raises on some token. -/
def autocorrectTokensE (fz : String → Option (String × ℚ)) : List String → Option (List String)
  | [] => some []
  | w :: ws =>
    if w.length ≤ 3 then (autocorrectTokensE fz ws).map (w :: ·)
    else
      match fz w with
      | none => none
      | some m =>
        (autocorrectTokensE fz ws).map
          ((if 85 ≤ m.2 && pyLower m.1 ≠ pyLower w then m.1 else w) :: ·)

def autocorrectTextE (fz : String → Option (String × ℚ)) (text : String) : Option String :=
  (autocorrectTokensE fz (pySplit text)).map (pyJoin " ")

/-- `_handle_find_pet` with a fallible extractor. -/
def handleFindPetE (ex : String → Option EntMap) (s : Session) (u : String) :
    Except Session (Session × String) :=
  match ex u with
  | none => .error s
  | some raw =>
    match lookupE (validate raw u) "NOTICE" with
    | some n => .ok (s, n)
    | none =>
      if !(validate raw u).isEmpty then .ok (updateEntitiesAndRespond s (validate raw u))
      else .ok (s, repromptOrConfirm s.entities)

/-- The second try and fallbacks of `_handle_unknown` with a fallible
extractor. -/
def unknownSecondTryE (ex : String → Option EntMap) (s : Session) (u : String) :
    Except Session (Session × String) :=
  match ex u with
  | none => .error s
  | some raw =>
    match lookupE (validate raw u) "NOTICE" with
    | some n => .ok (s, n)
    | none =>
      if !(validate raw u).isEmpty then .ok (updateEntitiesAndRespond s (validate raw u))
      else if requiredEntities.any (fun e => truthy (lookupE s.entities e)) then
        .ok (s, nudgeDetailText)
      else .ok (s, nudgeFullText)

/-- `_handle_unknown` with a fallible extractor. -/
def handleUnknownE (ex : String → Option EntMap) (s : Session) (u : String) :
    Except Session (Session × String) :=
  if s.intent = some "find_pet" then
    if (pySplit u).length ≤ 2 then
      match ex (firstTryText s u) with
      | none => .error s
      | some raw =>
        if !(validate raw (firstTryText s u)).isEmpty then
          .ok (updateEntitiesAndRespond s (validate raw (firstTryText s u)))
        else unknownSecondTryE ex s u
    else unknownSecondTryE ex s u
  else .ok (s, fallbackText)

/-- Intent routing with a fallible extractor. -/
def routeKnownE (ex : String → Option EntMap) (s3 : Session) (intent t : String) :
    Except Session (Session × String) :=
  if intent = "find_pet" then handleFindPetE ex s3 t
  else if intent = "pet_care" then .ok (s3, petCareText)
  else if intent = "thank_you" then .ok (s3, thankYouText)
  else if intent = "greeting" then .ok (s3, helloAgainText)
  else if intent = "goodbye" then .ok (s3, goodbyeText)
  else .ok (s3, fallbackText)

/-- The body of `handle_message` with fallible classifier and extractor. -/
def handleCoreE (cls : String → Option (String × ℚ)) (ex : String → Option EntMap)
    (s : Session) (t : String) : Except Session (Session × String) :=
  if pyLower t ∈ ["no", "nope", "nah"] then .ok (s, declineText)
  else if pyLower t ∈ ["hi", "hey", "hello"] then
    .ok ({ s with greeted := true }, helloAgainText)
  else
    match cls t with
    | none => .error s
    | some ic =>
      if s.greeted = false ∧ ic.1 = "greeting" then .ok (markGreeted s, greetingText)
      else if ic.1 = "unknown" ∨ ic.2 < mkRat 55 100 then handleUnknownE ex (markGreeted s) t
      else routeKnownE ex (applyIntentSwitch (markGreeted s) ic.1) ic.1 t

/-- `handle_message` with fallible collaborators. -/
def handleMessageE (cls : String → Option (String × ℚ)) (ex : String → Option EntMap)
    (fz : String → Option (String × ℚ)) (s : Session) (raw : String) :
    Except Session (Session × String) :=
  if pyStrip raw = "" then .ok (s, greetingText)
  else
    match autocorrectTextE fz (pyStrip raw) with
    | none => .error s
    | some t => handleCoreE cls ex s t

theorem handleFindPetE_error {ex : String → Option EntMap} {s s' : Session} {u : String}
    (h : handleFindPetE ex s u = .error s') : s' = s := by
  unfold handleFindPetE at h
  split at h
  · injection h with h1
    exact h1.symm
  · split at h
    · simp at h
    · split at h <;> simp at h

theorem unknownSecondTryE_error {ex : String → Option EntMap} {s s' : Session} {u : String}
    (h : unknownSecondTryE ex s u = .error s') : s' = s := by
  unfold unknownSecondTryE at h
  split at h
  · injection h with h1
    exact h1.symm
  · split at h
    · simp at h
    · split at h
      · simp at h
      · split at h <;> simp at h

theorem handleUnknownE_error {ex : String → Option EntMap} {s s' : Session} {u : String}
    (h : handleUnknownE ex s u = .error s') : s' = s := by
  unfold handleUnknownE at h
  split at h
  · split at h
    · split at h
      · injection h with h1
        exact h1.symm
      · split at h
        · simp at h
        · exact unknownSecondTryE_error h
    · exact unknownSecondTryE_error h
  · simp at h

theorem routeKnownE_error {ex : String → Option EntMap} {s3 s' : Session} {i t : String}
    (h : routeKnownE ex s3 i t = .error s') : s' = s3 ∧ i = "find_pet" := by
  unfold routeKnownE at h
  split_ifs at h with h1 h2 h3 h4 h5
  exact ⟨handleFindPetE_error h, h1⟩

/-- C7 (amended): a collaborator exception always propagates out of
`handle_message` uncaught (modelled by the `.error` result), and for every
reachable session the entities are exactly as before the turn — but the
`greeted` flag and the recorded intent may already have been updated when the
extractor raises, so the full session is not always restored. -/
theorem claim_C7_amended_thm (cls : String → Option (String × ℚ))
    (ex : String → Option EntMap) (fz : String → Option (String × ℚ))
    (s s' : Session) (raw : String)
    (hr : Reachable s)
    (he : handleMessageE cls ex fz s raw = .error s') :
    s'.entities = s.entities := by
  have hs := reachableE_sinv hr
  unfold handleMessageE at he
  split at he
  · simp at he
  · split at he
    · injection he with h1
      rw [← h1]
    · unfold handleCoreE at he
      split at he
      · simp at he
      · split at he
        · simp at he
        · split at he
          · injection he with h1
            rw [← h1]
          · rename_i ic hic
            split at he
            · simp at he
            · split at he
              · have h3 := handleUnknownE_error he
                rw [h3, markGreeted_entities]
              · obtain ⟨h3, hfp⟩ := routeKnownE_error he
                rw [h3]
                unfold applyIntentSwitch
                by_cases hn : isNewIntent ic.1 (markGreeted s).intent = true
                · rw [if_pos hn]
                  by_cases hne : s.entities = []
                  · rw [hne]
                  · exfalso
                    have hfp2 := hs.2 hne
                    rw [markGreeted_intent, hfp2, hfp] at hn
                    exact absurd hn (by decide)
                · rw [if_neg hn]
                  exact markGreeted_entities s

/-- The fallible oracles of the C7 counterexample: the classifier succeeds,
the extractor raises. -/
def cexC7cls : String → Option (String × ℚ) := fun _ => some ("find_pet", mkRat 9 10)

def cexC7ex : String → Option EntMap := fun _ => none

def cexC7fz : String → Option (String × ℚ) := fun w => some (w, 0)

/-- C7 counterexample: with the extractor raising on a confident `find_pet`
turn from the initial session, the exception escapes with the session already
mutated — `greeted` set and `intent` recorded — so the session is not left
exactly as it was before the turn. -/
theorem claim_C7_counterexample :
    handleMessageE cexC7cls cexC7ex cexC7fz session0 "I want a dog" =
      .error ⟨some "find_pet", [], true⟩ ∧
    (⟨some "find_pet", [], true⟩ : Session) ≠ session0 := by
  refine ⟨rfl, by decide⟩

theorem claim_C7_witness :
    (⟨some "find_pet", [], true⟩ : Session).entities = session0.entities :=
  claim_C7_amended_thm cexC7cls cexC7ex cexC7fz session0 ⟨some "find_pet", [], true⟩
    "I want a dog" ReachableE.init rfl
